import Mathlib

set_option autoImplicit false

/-!
Verification of the Shopify customer-export service (`nic269/shopify-interactive`).

The repository's core is a checkpointed fetch loop (`fetchAndSaveCustomers`),
an idempotent SQLite record cache keyed by customer id (`saveCustomers`,
`getCustomersByStore` in `src/shopify-client.ts`, which also embeds
`src/database.ts`), a job table with partial updates (`updateExportJob`),
HTTP start/resume coordination (`src/server.ts`), and a CSV materializer
(`exportCustomersToCSV`, `customerToCSVRow`, `escapeCSVField`, embedded in
`README.md`).

Strings, lists and natural numbers model SQLite TEXT/INTEGER columns and
JavaScript strings; the opaque Shopify pagination cursor is modelled as the
number of records already emitted, which the code never inspects.
-/

namespace ShopifyInteractive

/-! ## CSV field escaping (README.md lines 798-814: `escapeCSVField`, `csvRowToLine`) -/

/-- `value.replace(/"/g, '""')` on the underlying character list. -/
def dupQuotesList : List Char → List Char
  | [] => []
  | c :: rest => if c = '"' then '"' :: '"' :: dupQuotesList rest else c :: dupQuotesList rest

/-- `value.replace(/"/g, '""')`. -/
def dupQuotes (s : String) : String := ⟨dupQuotesList s.data⟩

/-- `escapeCSVField` from README.md lines 798-808: quote the field and double
internal quotes whenever it contains a comma, quote, newline or carriage
return (`value.includes(',') || value.includes('"') || ...`). -/
def escapeCSVField (value : String) : String :=
  if ',' ∈ value.data ∨ '"' ∈ value.data ∨ '\n' ∈ value.data ∨ '\r' ∈ value.data then
    "\"" ++ dupQuotes value ++ "\""
  else
    value

/-- `csvRowToLine` from README.md lines 810-814: escape each field of the row
and join with commas. -/
def csvRowToLine (row : List String) : String :=
  String.intercalate "," (row.map escapeCSVField)

/-- Collapse doubled quotes (`"" ↦ "`), the RFC4180 un-escaping of the
interior of a quoted field. -/
def collapseQuotesList : List Char → List Char
  | [] => []
  | [c] => [c]
  | c :: d :: rest =>
    if c = '"' ∧ d = '"' then '"' :: collapseQuotesList rest
    else c :: collapseQuotesList (d :: rest)

/-- RFC4180 re-parse of a single emitted field: if the field is wrapped in
quotes, strip them and collapse doubled interior quotes; otherwise the field
is taken verbatim. -/
def parseCSVField (s : String) : String :=
  if 2 ≤ s.data.length ∧ s.data.head? = some '"' ∧ s.data.getLast? = some '"' then
    ⟨collapseQuotesList ((s.data.drop 1).dropLast)⟩
  else
    s

theorem collapseQuotesList_quote_quote (l : List Char) :
    collapseQuotesList ('"' :: '"' :: l) = '"' :: collapseQuotesList l := by
  simp [collapseQuotesList]

theorem collapseQuotesList_cons_of_ne (c : Char) (h : ¬ c = '"') (l : List Char) :
    collapseQuotesList (c :: l) = c :: collapseQuotesList l := by
  cases l with
  | nil => simp [collapseQuotesList]
  | cons d rest => simp [collapseQuotesList, h]

theorem collapseQuotesList_dupQuotesList (l : List Char) :
    collapseQuotesList (dupQuotesList l) = l := by
  induction l with
  | nil => rfl
  | cons c rest ih =>
    by_cases hc : c = '"'
    · subst hc
      simp [dupQuotesList, collapseQuotesList_quote_quote, ih]
    · simp [dupQuotesList, hc, collapseQuotesList_cons_of_ne c hc, ih]

/-- Escaping then re-parsing a field recovers the value given to
`escapeCSVField` exactly, for every string. -/
theorem parseCSVField_escapeCSVField (v : String) :
    parseCSVField (escapeCSVField v) = v := by
  unfold escapeCSVField
  by_cases h : ',' ∈ v.data ∨ '"' ∈ v.data ∨ '\n' ∈ v.data ∨ '\r' ∈ v.data
  · simp only [h, if_true]
    unfold parseCSVField
    have hdata : ("\"" ++ dupQuotes v ++ "\"").data = '"' :: (dupQuotesList v.data ++ ['"']) := by
      simp [dupQuotes, String.data_append]
    rw [hdata]
    simp only [List.length_cons, List.length_append, List.head?_cons, List.getLast?_cons_cons]
    have hcond : 2 ≤ (dupQuotesList v.data ++ ['"']).length + 1 ∧
        (some '"' : Option Char) = some '"' ∧
        ('"' :: (dupQuotesList v.data ++ ['"'])).getLast? = some '"' := by
      refine ⟨by simp, rfl, ?_⟩
      have hassoc : ('"' :: (dupQuotesList v.data ++ ['"'])) = ('"' :: dupQuotesList v.data) ++ ['"'] := rfl
      rw [hassoc, List.getLast?_concat]
    rw [if_pos (by simpa using hcond)]
    have hdrop : (('"' :: (dupQuotesList v.data ++ ['"'])).drop 1).dropLast = dupQuotesList v.data := by
      simp
    rw [hdrop, collapseQuotesList_dupQuotesList]
  · simp only [h, if_false]
    unfold parseCSVField
    rw [if_neg]
    intro ⟨_, hh, _⟩
    have : '"' ∈ v.data := by
      cases hv : v.data with
      | nil => rw [hv] at hh; simp at hh
      | cons a as =>
        rw [hv] at hh
        simp at hh
        subst hh
        exact List.mem_cons_self _ _
    exact h (Or.inr (Or.inl this))

/-! ## Customer payload (src/types.ts, embedded at the end of src/server.ts) -/

/-- JSON value; used for the payload blobs (`addresses`, `events.nodes`,
`orders.nodes`) that the materializer serializes with `JSON.stringify`. -/
inductive Json where
  | null : Json
  | bool : Bool → Json
  | num : String → Json
  | str : String → Json
  | arr : List Json → Json
  | obj : List (String × Json) → Json

/-- `JSON.stringify` escaping of one character inside a string literal. -/
def jsonEscapeChar (c : Char) : String :=
  if c = '"' then "\\\""
  else if c = '\\' then "\\\\"
  else if c = '\n' then "\\n"
  else if c = '\r' then "\\r"
  else if c = '\t' then "\\t"
  else String.singleton c

def jsonEscape (s : String) : String :=
  String.join (s.data.map jsonEscapeChar)

mutual

def Json.stringify : Json → String
  | .null => "null"
  | .bool b => if b then "true" else "false"
  | .num s => s
  | .str s => "\"" ++ jsonEscape s ++ "\""
  | .arr xs => "[" ++ Json.stringifyItems xs ++ "]"
  | .obj fs => "\x7b" ++ Json.stringifyFields fs ++ "\x7d"

def Json.stringifyItems : List Json → String
  | [] => ""
  | [x] => Json.stringify x
  | x :: y :: rest => Json.stringify x ++ "," ++ Json.stringifyItems (y :: rest)

def Json.stringifyFields : List (String × Json) → String
  | [] => ""
  | [(k, v)] => "\"" ++ jsonEscape k ++ "\":" ++ Json.stringify v
  | (k, v) :: g :: rest =>
    "\"" ++ jsonEscape k ++ "\":" ++ Json.stringify v ++ "," ++ Json.stringifyFields (g :: rest)

end

/-- `CustomerAddress` from src/types.ts: every field is `string | null`. -/
structure CustomerAddress where
  address1 : Option String
  address2 : Option String
  city : Option String
  country : Option String
  countryCodeV2 : Option String
  province : Option String
  provinceCode : Option String
  zip : Option String
  phone : Option String
  firstName : Option String
  lastName : Option String
  company : Option String
deriving DecidableEq

structure Money where
  amount : String
  currencyCode : String
deriving DecidableEq

structure LastOrderRef where
  id : String
  name : String
  createdAt : String
deriving DecidableEq

structure Mergeable where
  isMergeable : Bool
deriving DecidableEq

structure CustomerStatistics where
  predictedSpendTier : Option String
  rfmGroup : Option String
deriving DecidableEq

/-- `CustomerData` from src/types.ts. Nested single-field wrappers
(`defaultEmailAddress.emailAddress`, `defaultPhoneNumber.phoneNumber`,
`originalCreatedDate.value`) are flattened to the wrapped value; the deep
`events.nodes` / `orders.nodes` documents, which the code only ever passes to
`JSON.stringify`, are carried as opaque `Json` payloads. -/
structure CustomerData where
  id : String
  firstName : Option String
  lastName : Option String
  displayName : String
  emailAddress : Option String
  phoneNumber : Option String
  verifiedEmail : Bool
  state : String
  locale : Option String
  note : Option String
  tags : List String
  createdAt : String
  updatedAt : String
  amountSpent : Option Money
  numberOfOrders : String
  lifetimeDuration : Option String
  addresses : List CustomerAddress
  defaultAddress : Option CustomerAddress
  lastOrder : Option LastOrderRef
  productSubscriberStatus : Option String
  mergeable : Option Mergeable
  originalCreatedDate : Option String
  eventsNodes : List Json
  ordersNodes : List Json
  statistics : Option CustomerStatistics

/-- JavaScript `x || ''` on an optional string; the fallback also fires when
the string itself is empty, which yields the same result. -/
def orEmpty : Option String → String
  | some v => v
  | none => ""

/-- JavaScript `x || '0'` on an optional string; the empty string is falsy. -/
def orZero : Option String → String
  | some v => if v = "" then "0" else v
  | none => "0"

def jsonOptStr : Option String → Json
  | some s => Json.str s
  | none => Json.null

def CustomerAddress.toJson (a : CustomerAddress) : Json :=
  Json.obj
    [ ("address1", jsonOptStr a.address1)
    , ("address2", jsonOptStr a.address2)
    , ("city", jsonOptStr a.city)
    , ("country", jsonOptStr a.country)
    , ("countryCodeV2", jsonOptStr a.countryCodeV2)
    , ("province", jsonOptStr a.province)
    , ("provinceCode", jsonOptStr a.provinceCode)
    , ("zip", jsonOptStr a.zip)
    , ("phone", jsonOptStr a.phone)
    , ("firstName", jsonOptStr a.firstName)
    , ("lastName", jsonOptStr a.lastName)
    , ("company", jsonOptStr a.company) ]

/-! ## Materializer row (README.md lines 753-796: `customerToCSVRow`) -/

/-- `customerToCSVRow` from README.md lines 753-796, as the ordered list of
the row object's values (the TS object literal's insertion order, which is
what `Object.values` in `csvRowToLine` iterates). Note the `note` field: the
source pre-doubles its quote characters (`(customer.note || '').replace(/"/g,
'""')`) before the generic `escapeCSVField` runs. -/
def customerToCSVRow (customer : CustomerData) : List String :=
  [ customer.id
  , orEmpty customer.firstName
  , orEmpty customer.lastName
  , customer.displayName
  , orEmpty customer.emailAddress
  , orEmpty customer.phoneNumber
  , if customer.verifiedEmail then "true" else "false"
  , customer.state
  , orEmpty customer.locale
  , dupQuotes (orEmpty customer.note)
  , String.intercalate ", " customer.tags
  , customer.createdAt
  , customer.updatedAt
  , orZero (customer.amountSpent.map Money.amount)
  , orEmpty (customer.amountSpent.map Money.currencyCode)
  , orZero (some customer.numberOfOrders)
  , orEmpty customer.lifetimeDuration
  , orEmpty (customer.defaultAddress.bind CustomerAddress.address1)
  , orEmpty (customer.defaultAddress.bind CustomerAddress.address2)
  , orEmpty (customer.defaultAddress.bind CustomerAddress.city)
  , orEmpty (customer.defaultAddress.bind CustomerAddress.country)
  , orEmpty (customer.defaultAddress.bind CustomerAddress.countryCodeV2)
  , orEmpty (customer.defaultAddress.bind CustomerAddress.province)
  , orEmpty (customer.defaultAddress.bind CustomerAddress.provinceCode)
  , orEmpty (customer.defaultAddress.bind CustomerAddress.zip)
  , orEmpty (customer.defaultAddress.bind CustomerAddress.phone)
  , orEmpty (customer.defaultAddress.bind CustomerAddress.firstName)
  , orEmpty (customer.defaultAddress.bind CustomerAddress.lastName)
  , orEmpty (customer.defaultAddress.bind CustomerAddress.company)
  , orEmpty (customer.lastOrder.map LastOrderRef.id)
  , orEmpty (customer.lastOrder.map LastOrderRef.name)
  , orEmpty (customer.lastOrder.map LastOrderRef.createdAt)
  , orEmpty customer.productSubscriberStatus
  , if (customer.mergeable.map Mergeable.isMergeable).getD false then "true" else "false"
  , orEmpty customer.originalCreatedDate
  , Json.stringify (Json.arr (customer.addresses.map CustomerAddress.toJson))
  , Json.stringify (Json.arr customer.eventsNodes)
  , Json.stringify (Json.arr customer.ordersNodes)
  , orEmpty (customer.statistics.bind CustomerStatistics.predictedSpendTier)
  , orEmpty (customer.statistics.bind CustomerStatistics.rfmGroup) ]

/-- The CSV header row (README.md lines 684-725). -/
def csvHeaders : List String :=
  [ "id", "firstName", "lastName", "displayName", "email", "phone"
  , "verifiedEmail", "state", "locale", "note", "tags", "createdAt"
  , "updatedAt", "amountSpent", "amountSpentCurrency", "numberOfOrders"
  , "lifetimeDuration", "defaultAddress_address1", "defaultAddress_address2"
  , "defaultAddress_city", "defaultAddress_country"
  , "defaultAddress_countryCodeV2", "defaultAddress_province"
  , "defaultAddress_provinceCode", "defaultAddress_zip"
  , "defaultAddress_phone", "defaultAddress_firstName"
  , "defaultAddress_lastName", "defaultAddress_company", "lastOrder_id"
  , "lastOrder_name", "lastOrder_createdAt", "productSubscriberStatus"
  , "isMergeable", "originalCreatedDate (metafield: magento.created_at)"
  , "allAddresses", "lastFiveEvents", "lastFiveOrders"
  , "statistics_predictedSpendTier", "statistics_rfmGroup" ]

/-- The lines `exportCustomersToCSV` writes (README.md lines 727-733): one
header row, then one row per customer, in the order the database query
returned them. -/
def exportCsvLines (customers : List CustomerData) : List String :=
  String.intercalate "," csvHeaders :: customers.map (fun c => csvRowToLine (customerToCSVRow c))

/-- The full file content: every line is written followed by a newline. -/
def exportCsvContent (customers : List CustomerData) : String :=
  String.join ((exportCsvLines customers).map (fun l => l ++ "\n"))

/-! ## The customers table (src/shopify-client.ts lines 112-201) -/

/-- A row of the `customers` table (src/shopify-client.ts lines 114-122).
The table's primary key is `id` ALONE; `store_name` is an ordinary indexed
column. The `data` TEXT column holds `JSON.stringify(customer)`; since
`getCustomersByStore` reads it back through `JSON.parse`, the model stores
the structured document itself. The list order is rowid order. -/
structure CustomerRow where
  id : String
  store_name : String
  data : CustomerData
  created_at : String
  updated_at : String

/-- SQLite `INSERT OR REPLACE` into `customers`: a conflicting row (same
primary key `id`, regardless of `store_name`) is deleted and the new row is
inserted with a fresh rowid, i.e. at the end. -/
def insertOrReplace (table : List CustomerRow) (r : CustomerRow) : List CustomerRow :=
  table.filter (fun x => x.id != r.id) ++ [r]

/-- One row as bound by the prepared statement in `saveCustomers`:
`(customer.id, storeName, JSON.stringify(customer), customer.createdAt ||
now, now)`; the `||` fallback also fires on an empty `createdAt`. -/
def customerRowOf (now storeName : String) (customer : CustomerData) : CustomerRow :=
  { id := customer.id
  , store_name := storeName
  , data := customer
  , created_at := if customer.createdAt = "" then now else customer.createdAt
  , updated_at := now }

/-- `saveCustomers` (src/shopify-client.ts lines 157-177): one transaction
running `INSERT OR REPLACE` for every customer of the batch, with a single
`now = new Date().toISOString()` for the whole batch. `now` is passed in as
the explicit write time. -/
def saveCustomers (now storeName : String) (customers : List CustomerData)
    (table : List CustomerRow) : List CustomerRow :=
  customers.foldl (fun t c => insertOrReplace t (customerRowOf now storeName c)) table

/-- SQLite's BINARY collation on TEXT values: lexicographic comparison of
the code units, here modelled on the code points of the character list. -/
def charListLe : List Char → List Char → Bool
  | [], _ => true
  | _ :: _, [] => false
  | a :: as, b :: bs =>
    if a.toNat < b.toNat then true
    else if b.toNat < a.toNat then false
    else charListLe as bs

/-- `a <= b` under SQLite's default TEXT ordering. -/
def textLe (a b : String) : Bool := charListLe a.data b.data

/-- Insert `a` before the first element it compares `le` to — the
insertion step of a stable insertion sort. -/
def sortInsert {α : Type} (le : α → α → Bool) (a : α) : List α → List α
  | [] => [a]
  | b :: l => if le a b then a :: b :: l else b :: sortInsert le a l

/-- Stable insertion sort: the model of an SQL `ORDER BY`. Elements that
compare equal keep their relative stored order. -/
def stableSort {α : Type} (le : α → α → Bool) : List α → List α
  | [] => []
  | a :: l => sortInsert le a (stableSort le l)

/-- The rows `getCustomersByStore` iterates (src/shopify-client.ts lines
179-186): `SELECT data FROM customers WHERE store_name = ? ORDER BY
updated_at DESC`. SQLite leaves the relative order of rows with equal
`updated_at` unspecified; the model resolves it to the stored (rowid) order
by using a stable sort. -/
def storeRowsSorted (storeName : String) (table : List CustomerRow) : List CustomerRow :=
  stableSort (fun a b => textLe b.updated_at a.updated_at)
    (table.filter (fun r => r.store_name == storeName))

/-- `getCustomersByStore`: the selected `data` documents in query order. -/
def getCustomersByStore (storeName : String) (table : List CustomerRow) : List CustomerData :=
  (storeRowsSorted storeName table).map CustomerRow.data

/-- `getCustomerCount` (src/shopify-client.ts lines 188-195). -/
def getCustomerCount (storeName : String) (table : List CustomerRow) : Nat :=
  (table.filter (fun r => r.store_name == storeName)).length

/-! ## The export_jobs table (src/shopify-client.ts lines 130-151, 203-349) -/

/-- The opaque Shopify pagination cursor. The code never inspects it; the
model represents the token by the number of records lying before it in the
upstream stream. -/
abbrev Cursor := Nat

/-- `ExportStatus` from src/types.ts. -/
inductive JobStatus where
  | pending
  | in_progress
  | completed
  | failed
deriving DecidableEq

/-- A row of the `export_jobs` table (src/shopify-client.ts lines 131-144). -/
structure JobRow where
  id : String
  store_name : String
  status : JobStatus
  total_customers : Nat
  processed_customers : Nat
  started_at : String
  completed_at : Option String
  error : Option String
  csv_file_path : Option String
  last_cursor : Option Cursor
deriving DecidableEq

/-- `createExportJob` (src/shopify-client.ts lines 204-223): a fresh row
with status `pending`, zero counters and NULL cursor. The generated id
`export_<store>_<Date.now()>` and the `startedAt` timestamp are passed in. -/
def newExportJob (id storeName startedAt : String) : JobRow :=
  { id := id
  , store_name := storeName
  , status := JobStatus.pending
  , total_customers := 0
  , processed_customers := 0
  , started_at := startedAt
  , completed_at := none
  , error := none
  , csv_file_path := none
  , last_cursor := none }

/-- The `Partial<ExportJob>` object handed to `updateExportJob`. An outer
`none` is an absent/`undefined` field. For `lastCursor` the inner option is
the column value itself, so `some none` is an explicit SQL NULL — which the
source's `updates.lastCursor !== undefined` guard would let through, while
plain `undefined` (outer `none`) is skipped. -/
structure JobUpdates where
  status : Option JobStatus
  totalCustomers : Option Nat
  processedCustomers : Option Nat
  completedAt : Option String
  error : Option String
  csvFilePath : Option String
  lastCursor : Option (Option Cursor)
deriving DecidableEq

/-- A string field guarded by a JS truthiness test (`if (updates.x)`): an
absent field or an empty string leaves the column unchanged. -/
def applyIfTruthy (u : Option String) (old : Option String) : Option String :=
  match u with
  | some v => if v = "" then old else some v
  | none => old

/-- `updateExportJob` (src/shopify-client.ts lines 225-263) applied to one
row. Field guards follow the source: `status`, `completedAt`, `error` and
`csvFilePath` are truthiness-tested (`JobStatus` values are never the empty
string, so `status` is a plain override); `totalCustomers`,
`processedCustomers` and `lastCursor` are tested with `!== undefined`. -/
def updateExportJob (u : JobUpdates) (j : JobRow) : JobRow :=
  { j with
    status := match u.status with
      | some s => s
      | none => j.status
    total_customers := match u.totalCustomers with
      | some n => n
      | none => j.total_customers
    processed_customers := match u.processedCustomers with
      | some n => n
      | none => j.processed_customers
    completed_at := applyIfTruthy u.completedAt j.completed_at
    error := applyIfTruthy u.error j.error
    csv_file_path := applyIfTruthy u.csvFilePath j.csv_file_path
    last_cursor := match u.lastCursor with
      | some c => c
      | none => j.last_cursor }

/-- `UPDATE export_jobs SET ... WHERE id = ?`: `id` is the primary key, so
exactly the rows whose id matches (at most one) are updated. -/
def updateExportJobIn (jobs : List JobRow) (jobId : String) (u : JobUpdates) : List JobRow :=
  jobs.map (fun j => if j.id == jobId then updateExportJob u j else j)

/-- `getExportJob` (src/shopify-client.ts lines 265-283). -/
def getExportJob (jobs : List JobRow) (jobId : String) : Option JobRow :=
  jobs.find? (fun j => j.id == jobId)

/-- `getExportJobsByStore` (src/shopify-client.ts lines 285-307): rows of
the store ordered by `started_at` descending (stable on ties, as for the
customers query), limited. -/
def getExportJobsByStore (jobs : List JobRow) (storeName : String) (limit : Nat) : List JobRow :=
  (stableSort (fun a b => textLe b.started_at a.started_at)
    (jobs.filter (fun j => j.store_name == storeName))).take limit

/-! ## The fetch loop

`src/export-service.ts` is absent from the repository snapshot; the copy
embedded in README.md (lines 394-654) predates the resume feature — its
`fetchAndSaveCustomers` takes no cursor argument while `src/server.ts` line
159 and `src/cli.ts` line 237 pass one. The loop below therefore follows
that embedded copy together with the resume changes the repository records
verbatim in IMPLEMENTATION-SUMMARY.md: the `startCursor` parameter, the
running total initialised from `job?.processedCustomers || 0`, the
per-batch `lastCursor` checkpoint, and the terminal updates. -/

/-- Full database state: the `customers` and `export_jobs` tables. -/
structure DbState where
  customers : List CustomerRow
  jobs : List JobRow

/-- One page of the upstream `customers(first: pageSize, after: cursor)`
query against a fixed stream `src`. A null cursor starts at position 0;
`hasNextPage` is whether records remain past this page; `endCursor` is null
exactly when the page has no edges. -/
def fetchPage (src : List CustomerData) (pageSize : Nat) (cursor : Option Cursor) :
    List CustomerData × Bool × Option Cursor :=
  let start := cursor.getD 0
  let records := (src.drop start).take pageSize
  (records, decide (start + pageSize < src.length),
    if records.isEmpty then none else some (start + records.length))

/-- Modelled from the spec: the `in_progress` update issued on entry
(`updateExportJob(exportJobId, { status: 'in_progress' })`, README.md line
427). -/
def inProgressUpdates : JobUpdates :=
  ⟨some JobStatus.in_progress, none, none, none, none, none, none⟩

/-- Modelled from the spec: the per-batch checkpoint — "After each
successful batch: UPDATE export_jobs SET processed_customers = ...,
last_cursor = ..." (RESUME-EXPORT-GUIDE.md; IMPLEMENTATION-SUMMARY.md:
`{ processedCustomers: totalCustomers, lastCursor: nextCursor }`). -/
def batchUpdates (total : Nat) (endCursor : Cursor) : JobUpdates :=
  ⟨none, none, some total, none, none, none, some (some endCursor)⟩

/-- Modelled from the spec: the terminal update on success. README.md lines
632-637 set `status`, `totalCustomers` and `completedAt`;
IMPLEMENTATION-SUMMARY.md additionally records `lastCursor: undefined //
Clear on success` verbatim — an absent/`undefined` field, hence outer
`none` here. -/
def completionUpdates (total : Nat) (completedAt : String) : JobUpdates :=
  ⟨some JobStatus.completed, some total, none, some completedAt, none, none, none⟩

/-- Modelled from the spec: the terminal update on error (README.md lines
645-650): status `failed`, the error message and `completedAt`; the cursor
field is not mentioned, so the last committed checkpoint survives. -/
def failureUpdates (errorMsg completedAt : String) : JobUpdates :=
  ⟨some JobStatus.failed, none, none, some completedAt, some errorMsg, none, none⟩

/-- Modelled from the spec: committing one fetched page — `saveCustomers`
followed by the checkpoint update, both skipped when the page is empty
(`if (customers.length > 0)`, README.md line 606). `pos` is the page's
start position and `total` the running total before the page. -/
def commitPage (src : List CustomerData) (ps : Nat) (storeName jobId now : String)
    (pos total : Nat) (st : DbState) : DbState :=
  let records := (src.drop pos).take ps
  if records.isEmpty then st
  else
    { customers := saveCustomers now storeName records st.customers
    , jobs := updateExportJobIn st.jobs jobId
        (batchUpdates (total + records.length) (pos + records.length)) }

/-- Modelled from the spec: the last iteration of the loop (the fetched
page reports `hasNextPage = false`): commit the page, then apply the
completion update with the final running total. -/
def completeRun (src : List CustomerData) (ps : Nat) (storeName jobId now : String)
    (pos total : Nat) (st : DbState) : DbState :=
  let st1 := commitPage src ps storeName jobId now pos total st
  let jobs2 := updateExportJobIn st1.jobs jobId
    (completionUpdates (total + ((src.drop pos).take ps).length) now)
  { st1 with jobs := jobs2 }

/-- Modelled from the spec: the fetch loop of `fetchAndSaveCustomers` run
to successful completion from position `pos` with running total `total`.
Each iteration fetches a page at the current cursor, commits it, and
continues while `hasNextPage`; the final iteration applies the completion
update. The recursion is fuel-driven so that it computes by kernel
reduction; `src.length - pos < fuel` always suffices, since every
iteration advances `pos` by a full page. The source stamps each batch with
its own `new Date()`; the model passes one write time `now` for the run,
which none of the verified properties distinguish. -/
def pagerRun (src : List CustomerData) (ps : Nat) (storeName jobId now : String) :
    Nat → Nat → Nat → DbState → DbState
  | 0, _pos, _total, st => st
  | fuel + 1, pos, total, st =>
    if pos + ps < src.length then
      pagerRun src ps storeName jobId now fuel
        (pos + ((src.drop pos).take ps).length)
        (total + ((src.drop pos).take ps).length)
        (commitPage src ps storeName jobId now pos total st)
    else
      completeRun src ps storeName jobId now pos total st

/-- Modelled from the spec: a run of the fetch loop that commits exactly
`k` pages and then aborts on a transient fetch error, applying the
`failed` terminal update. The last committed checkpoint is what remains. -/
def pagerRunFailAfter (src : List CustomerData) (ps : Nat)
    (storeName jobId errorMsg now : String) :
    Nat → Nat → Nat → DbState → DbState
  | 0, _pos, _total, st =>
    { st with jobs := updateExportJobIn st.jobs jobId (failureUpdates errorMsg now) }
  | k + 1, pos, total, st =>
    pagerRunFailAfter src ps storeName jobId errorMsg now k
      (pos + ((src.drop pos).take ps).length)
      (total + ((src.drop pos).take ps).length)
      (commitPage src ps storeName jobId now pos total st)

/-- Modelled from the spec: `fetchAndSaveCustomers(storeName, jobId?,
startCursor?)` run to successful completion — resolve the job (`jobId ?
getExportJob(jobId) : null`, creating a fresh one if none), mark it
`in_progress`, initialise `cursor = startCursor || null` and
`totalCustomers = job?.processedCustomers || 0`, then run the loop. -/
def fetchAndSaveCustomers (src : List CustomerData) (ps : Nat)
    (storeName : String) (jobId? : Option String) (startCursor : Option Cursor)
    (newJobId startedAt now : String) (st : DbState) : DbState :=
  let job? := jobId?.bind (getExportJob st.jobs)
  let exportJobId := match job? with
    | some j => j.id
    | none => newJobId
  let jobs0 := match job? with
    | some _ => st.jobs
    | none => st.jobs ++ [newExportJob newJobId storeName startedAt]
  let total0 := match job? with
    | some j => j.processed_customers
    | none => 0
  pagerRun src ps storeName exportJobId now (src.length + 1) (startCursor.getD 0) total0
    ⟨st.customers, updateExportJobIn jobs0 exportJobId inProgressUpdates⟩

/-- Modelled from the spec: the same entry, but the run aborts on a
transient error after committing `k` pages. -/
def fetchAndSaveFailAfter (src : List CustomerData) (ps : Nat)
    (storeName : String) (jobId? : Option String) (startCursor : Option Cursor)
    (newJobId startedAt errorMsg now : String) (k : Nat) (st : DbState) : DbState :=
  let job? := jobId?.bind (getExportJob st.jobs)
  let exportJobId := match job? with
    | some j => j.id
    | none => newJobId
  let jobs0 := match job? with
    | some _ => st.jobs
    | none => st.jobs ++ [newExportJob newJobId storeName startedAt]
  let total0 := match job? with
    | some j => j.processed_customers
    | none => 0
  pagerRunFailAfter src ps storeName exportJobId errorMsg now k
    (startCursor.getD 0) total0
    ⟨st.customers, updateExportJobIn jobs0 exportJobId inProgressUpdates⟩

/-! ## The HTTP control surface (src/server.ts) -/

/-- The configured stores (`storeConfigs`, src/shopify-client.ts lines
9-42); route handlers reject any other `:storeName`. -/
def storeNames : List String :=
  [ "evisu-hk-staging", "evisu-hk", "evisu-ap", "evisu-eu"
  , "evisu-jp", "evisu-sa", "evisu-tw", "evisu-us" ]

/-- Outcome of `POST /api/export/:storeName` (src/server.ts lines 44-96)
before the background task runs: 400 invalid store, 409 conflict when
`activeExports` already holds the store, else accepted. -/
inductive StartDecision where
  | invalidStore
  | conflict
  | accepted
deriving DecidableEq

/-- The start route's guards, in source order: store validity, then the
in-memory `activeExports` registry. The decision never consults the
`export_jobs` table. -/
def resolveStart (active : List String) (storeName : String) : StartDecision :=
  if storeName ∉ storeNames then StartDecision.invalidStore
  else if storeName ∈ active then StartDecision.conflict
  else StartDecision.accepted

/-- `POST /api/export/:storeName` followed by its completed background task
(src/server.ts lines 64-87): on any rejection the state is unchanged; on
acceptance `fetchAndSaveCustomers(storeName)` runs with no job id and no
cursor. -/
def startRequestRun (src : List CustomerData) (ps : Nat)
    (newJobId startedAt now : String) (st : DbState) (active : List String)
    (storeName : String) : DbState :=
  match resolveStart active storeName with
  | StartDecision.accepted =>
    fetchAndSaveCustomers src ps storeName none none newJobId startedAt now st
  | _ => st

/-- Outcome of `POST /api/export/:storeName/resume` (src/server.ts lines
99-182) before the background task runs. -/
inductive ResumeDecision where
  | invalidStore
  | conflict
  | notFound
  | invalidState (s : JobStatus) (jobId : String)
  | noCursor (jobId : String)
  | accepted (jobId : String) (cursor : Cursor) (processed : Nat)
deriving DecidableEq

/-- Locating the job to resume (src/server.ts lines 119-126): the explicit
`jobId` if given and found, else the first `failed` or `in_progress` job
among the ten most recent for the store. -/
def findJobToResume (jobs : List JobRow) (storeName : String) (jobId? : Option String) :
    Option JobRow :=
  match jobId?.bind (getExportJob jobs) with
  | some j => some j
  | none =>
    (getExportJobsByStore jobs storeName 10).find?
      (fun j => j.status == JobStatus.failed || j.status == JobStatus.in_progress)

/-- The resume route's guards, in source order: store validity, the
`activeExports` registry, job lookup, the status check (`!== 'failed' &&
!== 'in_progress'` → 400), and the cursor check (`!jobToResume.lastCursor`
→ 400). -/
def resolveResume (st : DbState) (active : List String) (storeName : String)
    (jobId? : Option String) : ResumeDecision :=
  if storeName ∉ storeNames then ResumeDecision.invalidStore
  else if storeName ∈ active then ResumeDecision.conflict
  else
    match findJobToResume st.jobs storeName jobId? with
    | none => ResumeDecision.notFound
    | some j =>
      if j.status ≠ JobStatus.failed ∧ j.status ≠ JobStatus.in_progress then
        ResumeDecision.invalidState j.status j.id
      else
        match j.last_cursor with
        | none => ResumeDecision.noCursor j.id
        | some c => ResumeDecision.accepted j.id c j.processed_customers

/-- `POST /api/export/:storeName/resume` followed by its completed
background task (src/server.ts lines 152-172): on any rejection the state
is unchanged; on acceptance `fetchAndSaveCustomers(storeName,
jobToResume.id, jobToResume.lastCursor || undefined)` runs. -/
def resumeRequestRun (src : List CustomerData) (ps : Nat)
    (newJobId startedAt now : String) (st : DbState) (active : List String)
    (storeName : String) (jobId? : Option String) : DbState :=
  match resolveResume st active storeName jobId? with
  | ResumeDecision.accepted jid cur _ =>
    fetchAndSaveCustomers src ps storeName (some jid) (some cur) newJobId startedAt now st
  | _ => st

/-! ## Materializer output file (README.md lines 671-681) -/

/-- A UTC instant, the components `Date.prototype.toISOString` prints. -/
structure UTCTime where
  year : Nat
  month : Nat
  day : Nat
  hour : Nat
  minute : Nat
  second : Nat
  ms : Nat
deriving DecidableEq

def digitChars : List Char := ['0', '1', '2', '3', '4', '5', '6', '7', '8', '9']

def digitChar (n : Nat) : Char := digitChars.getD (n % 10) '0'

/-- Decimal digits of `n`, most significant first; fuel-driven so it
computes by kernel reduction (`n + 1` fuel always suffices). -/
def natDigitsAux : Nat → Nat → List Char
  | 0, _ => []
  | fuel + 1, n => if n < 10 then [digitChar n] else natDigitsAux fuel (n / 10) ++ [digitChar n]

def natRepr (n : Nat) : String := ⟨natDigitsAux (n + 1) n⟩

/-- Zero-pad to two digits, as `toISOString` prints months through seconds. -/
def pad2 (n : Nat) : String := if n < 10 then "0" ++ natRepr n else natRepr n

/-- Zero-pad to three digits (milliseconds). -/
def pad3 (n : Nat) : String :=
  if n < 10 then "00" ++ natRepr n else if n < 100 then "0" ++ natRepr n else natRepr n

/-- Zero-pad to four digits (years up to 9999). -/
def pad4 (n : Nat) : String :=
  if n < 10 then "000" ++ natRepr n
  else if n < 100 then "00" ++ natRepr n
  else if n < 1000 then "0" ++ natRepr n
  else natRepr n

/-- The date part of the ISO string, `YYYY-MM-DD`. -/
def isoDatePart (t : UTCTime) : String :=
  pad4 t.year ++ "-" ++ pad2 t.month ++ "-" ++ pad2 t.day

/-- The time-of-day part of the ISO string, `HH:mm:ss.sssZ`. -/
def isoTimePart (t : UTCTime) : String :=
  pad2 t.hour ++ ":" ++ pad2 t.minute ++ ":" ++ pad2 t.second ++ "." ++ pad3 t.ms ++ "Z"

/-- `new Date().toISOString()`: `YYYY-MM-DDTHH:mm:ss.sssZ`, always UTC. -/
def toISOString (t : UTCTime) : String :=
  isoDatePart t ++ "T" ++ isoTimePart t

/-- `.replace(/[:.]/g, '-')` (README.md line 677). -/
def replaceColonDot (s : String) : String :=
  ⟨s.data.map (fun c => if c = ':' ∨ c = '.' then '-' else c)⟩

/-- `.split('T')[0]`: the prefix before the first `'T'`. -/
def splitAtT (s : String) : String := ⟨s.data.takeWhile (fun c => c ≠ 'T')⟩

/-- The `timestamp` of README.md line 677:
`new Date().toISOString().replace(/[:.]/g, '-').split('T')[0]`. -/
def csvTimestamp (t : UTCTime) : String := splitAtT (replaceColonDot (toISOString t))

/-- The output path of `exportCustomersToCSV` (README.md lines 672-678):
`<outputDir>/customers-<storeName>-<timestamp>.csv` with `outputDir`
resolving to the `exports` directory. -/
def csvOutputFile (storeName : String) (t : UTCTime) : String :=
  "exports/customers-" ++ storeName ++ "-" ++ csvTimestamp t ++ ".csv"

/-- `fs.createWriteStream(outputFile, { flags: 'w' })` (README.md line
681) followed by the writes: flag `w` truncates, so the path afterwards
holds exactly the newly written content. -/
def writeFileTrunc (files : String → Option String) (path content : String) :
    String → Option String :=
  fun p => if p = path then some content else files p

theorem digitChar_mem (n : Nat) : digitChar n ∈ digitChars := by
  have h : n % 10 < 10 := Nat.mod_lt _ (by omega)
  unfold digitChar
  set m := n % 10 with hm
  interval_cases m <;> decide

theorem natDigitsAux_subset (fuel n : Nat) :
    ∀ c ∈ natDigitsAux fuel n, c ∈ digitChars := by
  induction fuel generalizing n with
  | zero => intro c hc; simp [natDigitsAux] at hc
  | succ fuel ih =>
    intro c hc
    rw [natDigitsAux] at hc
    by_cases h : n < 10
    · rw [if_pos h] at hc
      simp at hc
      subst hc
      exact digitChar_mem n
    · rw [if_neg h] at hc
      rcases List.mem_append.mp hc with h1 | h1
      · exact ih (n / 10) c h1
      · simp at h1
        subst h1
        exact digitChar_mem n

theorem natRepr_digits (n : Nat) : ∀ c ∈ (natRepr n).data, c ∈ digitChars :=
  natDigitsAux_subset (n + 1) n

/-- Characters of the ISO date part: digits or `'-'`. -/
theorem isoDatePart_chars (t : UTCTime) :
    ∀ c ∈ (isoDatePart t).data, c ∈ digitChars ∨ c = '-' := by
  intro c hc
  have hpad2 : ∀ m : Nat, ∀ d ∈ (pad2 m).data, d ∈ digitChars ∨ d = '-' := by
    intro m d hd
    unfold pad2 at hd
    split at hd
    · rw [String.data_append] at hd
      rcases List.mem_append.mp hd with h1 | h1
      · simp at h1; subst h1; left; decide
      · exact Or.inl (natRepr_digits m d h1)
    · exact Or.inl (natRepr_digits m d hd)
  have hpad4 : ∀ m : Nat, ∀ d ∈ (pad4 m).data, d ∈ digitChars ∨ d = '-' := by
    intro m d hd
    unfold pad4 at hd
    split at hd
    · rw [String.data_append] at hd
      rcases List.mem_append.mp hd with h1 | h1
      · simp at h1; subst h1; left; decide
      · exact Or.inl (natRepr_digits m d h1)
    · split at hd
      · rw [String.data_append] at hd
        rcases List.mem_append.mp hd with h1 | h1
        · simp at h1; subst h1; left; decide
        · exact Or.inl (natRepr_digits m d h1)
      · split at hd
        · rw [String.data_append] at hd
          rcases List.mem_append.mp hd with h1 | h1
          · simp at h1; subst h1; left; decide
          · exact Or.inl (natRepr_digits m d h1)
        · exact Or.inl (natRepr_digits m d hd)
  unfold isoDatePart at hc
  rw [String.data_append, String.data_append, String.data_append, String.data_append] at hc
  rcases List.mem_append.mp hc with h1 | h1
  · rcases List.mem_append.mp h1 with h2 | h2
    · rcases List.mem_append.mp h2 with h3 | h3
      · rcases List.mem_append.mp h3 with h4 | h4
        · exact hpad4 t.year c h4
        · simp at h4; subst h4; right; rfl
      · exact hpad2 t.month c h3
    · simp at h2; subst h2; right; rfl
  · exact hpad2 t.day c h1

theorem takeWhile_append_all {p : Char → Bool} (l₁ l₂ : List Char)
    (h : ∀ c ∈ l₁, p c = true) : (l₁ ++ l₂).takeWhile p = l₁ ++ l₂.takeWhile p := by
  induction l₁ with
  | nil => simp
  | cons a l ih =>
    simp only [List.cons_append, List.takeWhile_cons]
    rw [h a (List.mem_cons_self a l), ih (fun c hc => h c (List.mem_cons_of_mem a hc))]
    simp

/-- The `timestamp` in the CSV file name is exactly the UTC date part
`YYYY-MM-DD` of the ISO instant: everything from the `'T'` on — the time,
the milliseconds and the zone — is cut off. -/
theorem csvTimestamp_eq_isoDatePart (t : UTCTime) : csvTimestamp t = isoDatePart t := by
  have hdate : ∀ c ∈ (isoDatePart t).data,
      (if c = ':' ∨ c = '.' then '-' else c) = c := by
    intro c hc
    rcases isoDatePart_chars t c hc with h | h
    · have h1 : ¬ (c = ':' ∨ c = '.') := by
        intro hcontra
        rcases hcontra with h2 | h2 <;> (subst h2; revert h; decide)
      rw [if_neg h1]
    · subst h; rfl
  have hnoT : ∀ c ∈ (isoDatePart t).data,
      (fun c => decide (c ≠ 'T')) c = true := by
    intro c hc
    rcases isoDatePart_chars t c hc with h | h
    · simp only [decide_eq_true_eq]
      intro hT
      subst hT
      revert h
      decide
    · subst h; decide
  unfold csvTimestamp splitAtT replaceColonDot toISOString
  rw [String.data_append, String.data_append, List.append_assoc]
  rw [List.map_append, List.map_congr_left hdate, List.map_id']
  have hT : ("T".data ++ (isoTimePart t).data).map
        (fun c => if c = ':' ∨ c = '.' then '-' else c)
      = 'T' :: ((isoTimePart t).data).map (fun c => if c = ':' ∨ c = '.' then '-' else c) := by
    rfl
  rw [hT]
  rw [takeWhile_append_all _ _ hnoT]
  simp [List.takeWhile_cons]

/-! ## Algebra of the record-cache upsert -/

/-- Whether the batch `P` contains a customer whose id collides with row `r`. -/
def hitsId (P : List CustomerData) (r : CustomerRow) : Bool :=
  P.any (fun c => c.id == r.id)

theorem saveCustomers_nil (now s : String) (t : List CustomerRow) :
    saveCustomers now s [] t = t := rfl

theorem saveCustomers_cons (now s : String) (c : CustomerData) (P : List CustomerData)
    (t : List CustomerRow) :
    saveCustomers now s (c :: P) t
      = saveCustomers now s P (insertOrReplace t (customerRowOf now s c)) := rfl

/-- Characterization of a batch upsert: the surviving old rows are exactly
those whose id no customer of the batch carries, in their old order,
followed by the rows the batch itself produces. -/
theorem saveCustomers_characterization (now s : String) (P : List CustomerData) :
    ∀ t : List CustomerRow,
      saveCustomers now s P t
        = t.filter (fun r => ! hitsId P r) ++ saveCustomers now s P [] := by
  induction P with
  | nil =>
    intro t
    simp [saveCustomers, hitsId]
  | cons c P ih =>
    intro t
    rw [saveCustomers_cons, ih, saveCustomers_cons now s c P [],
        ih (insertOrReplace [] (customerRowOf now s c))]
    have hnil : insertOrReplace [] (customerRowOf now s c) = [customerRowOf now s c] := rfl
    rw [hnil]
    unfold insertOrReplace
    rw [List.filter_append, List.append_assoc]
    congr 1
    rw [List.filter_filter]
    apply List.filter_congr
    intro r _
    have hcomm : (r.id == c.id) = (c.id == r.id) := by
      by_cases h : r.id = c.id
      · rw [h]
      · have e1 : (r.id == c.id) = false := beq_eq_false_iff_ne.mpr h
        have e2 : (c.id == r.id) = false := beq_eq_false_iff_ne.mpr (fun hh => h hh.symm)
        rw [e1, e2]
    have hid : (customerRowOf now s c).id = c.id := rfl
    show ((! hitsId P r) && (r.id != (customerRowOf now s c).id)) = (! hitsId (c :: P) r)
    rw [hid]
    simp only [hitsId, List.any_cons, Bool.not_or, bne]
    rw [Bool.and_comm, hcomm]

/-- Every row produced by upserting a batch into `u` either carries an id
from the batch or was already in `u`. -/
theorem mem_saveCustomers (now s : String) (P : List CustomerData) :
    ∀ (u : List CustomerRow) (r : CustomerRow),
      r ∈ saveCustomers now s P u → hitsId P r = true ∨ r ∈ u := by
  induction P with
  | nil =>
    intro u r h
    right
    simpa [saveCustomers] using h
  | cons c P ih =>
    intro u r h
    rw [saveCustomers_cons] at h
    rcases ih _ r h with h1 | h1
    · left
      simp only [hitsId, List.any_cons, Bool.or_eq_true]
      right
      simpa [hitsId] using h1
    · unfold insertOrReplace at h1
      rcases List.mem_append.mp h1 with h2 | h2
      · right
        exact List.mem_of_mem_filter h2
      · left
        simp only [List.mem_singleton] at h2
        subst h2
        simp [hitsId, customerRowOf]

/-- Upserting the same batch a second time, at the later write time,
supersedes the first upsert entirely: the result is the single upsert at
the later time. -/
theorem saveCustomers_supersedes (now1 now2 s : String) (P : List CustomerData)
    (t : List CustomerRow) :
    saveCustomers now2 s P (saveCustomers now1 s P t) = saveCustomers now2 s P t := by
  rw [saveCustomers_characterization now2 s P (saveCustomers now1 s P t),
      saveCustomers_characterization now1 s P t,
      saveCustomers_characterization now2 s P t]
  congr 1
  rw [List.filter_append]
  have h1 : (saveCustomers now1 s P []).filter (fun r => ! hitsId P r) = [] := by
    rw [List.filter_eq_nil_iff]
    intro r hr
    rcases mem_saveCustomers now1 s P [] r hr with h | h
    · simp [h]
    · simp at h
  rw [h1, List.append_nil, List.filter_filter]
  apply List.filter_congr
  intro r _
  simp

/-- Upserting a batch of fresh, pairwise-distinct ids appends its rows. -/
theorem saveCustomers_append_of_fresh (now s : String) (P : List CustomerData) :
    ∀ t : List CustomerRow,
      (∀ c ∈ P, ∀ r ∈ t, r.id ≠ c.id) → (P.map CustomerData.id).Nodup →
      saveCustomers now s P t = t ++ P.map (customerRowOf now s) := by
  induction P with
  | nil =>
    intro t _ _
    simp [saveCustomers]
  | cons c P ih =>
    intro t hfresh hnd
    rw [saveCustomers_cons]
    have hins : insertOrReplace t (customerRowOf now s c) = t ++ [customerRowOf now s c] := by
      unfold insertOrReplace
      congr 1
      apply List.filter_eq_self.mpr
      intro r hr
      have : r.id ≠ c.id := hfresh c (List.mem_cons_self c P) r hr
      simpa [customerRowOf, bne] using this
    rw [hins, ih (t ++ [customerRowOf now s c]) ?fresh ?nodup]
    · simp
    case fresh =>
      intro c' hc' r hr
      rcases List.mem_append.mp hr with h1 | h1
      · exact hfresh c' (List.mem_cons_of_mem c hc') r h1
      · simp only [List.mem_singleton] at h1
        subst h1
        have hnotin : c.id ∉ P.map CustomerData.id := by
          simpa using (List.nodup_cons.mp hnd).1
        intro hEq
        exact hnotin (by
          rw [show (customerRowOf now s c).id = c.id from rfl] at hEq
          rw [hEq]
          exact List.mem_map_of_mem CustomerData.id hc')
    case nodup =>
      exact (List.nodup_cons.mp (by simpa using hnd)).2

/-! ## Job-row bookkeeping under the fetch loop -/

theorem updateExportJob_id (u : JobUpdates) (j : JobRow) :
    (updateExportJob u j).id = j.id := rfl

theorem getExportJob_updateExportJobIn (jobs : List JobRow) (jid : String) (u : JobUpdates) :
    getExportJob (updateExportJobIn jobs jid u) jid
      = (getExportJob jobs jid).map (updateExportJob u) := by
  unfold getExportJob updateExportJobIn
  induction jobs with
  | nil => rfl
  | cons j js ih =>
    by_cases h : (j.id == jid) = true
    · simp only [List.map_cons, if_pos h, List.find?]
      rw [show ((updateExportJob u j).id == jid) = true from h, h]
      rfl
    · simp only [List.map_cons, if_neg h, List.find?]
      rw [Bool.not_eq_true] at h
      rw [h]
      simpa using ih

/-- Two successive batch checkpoints collapse to the last one: the
checkpoint overwrites exactly `processed_customers` and `last_cursor`. -/
theorem updateExportJob_batch_batch (a b a' b' : Nat) (j : JobRow) :
    updateExportJob (batchUpdates a b) (updateExportJob (batchUpdates a' b') j)
      = updateExportJob (batchUpdates a b) j := rfl

theorem commitPage_of_nil (src : List CustomerData) (ps : Nat)
    (storeName jid now : String) (pos total : Nat) (st : DbState)
    (h : (src.drop pos).take ps = []) :
    commitPage src ps storeName jid now pos total st = st := by
  unfold commitPage
  rw [h]
  rfl

theorem commitPage_of_ne_nil (src : List CustomerData) (ps : Nat)
    (storeName jid now : String) (pos total : Nat) (st : DbState)
    (h : (src.drop pos).take ps ≠ []) :
    commitPage src ps storeName jid now pos total st
      = ⟨saveCustomers now storeName ((src.drop pos).take ps) st.customers,
         updateExportJobIn st.jobs jid
           (batchUpdates (total + ((src.drop pos).take ps).length)
             (pos + ((src.drop pos).take ps).length))⟩ := by
  unfold commitPage
  rw [if_neg (by simpa [List.isEmpty_iff] using h)]

/-- The job row as it stands after a successful `pagerRun` from position
`pos` with running total `total`: the final batch checkpoint (absent when
no page at or past `pos` had records) followed by the completion update. -/
def pagerFinalJob (now : String) (len pos total : Nat) (j : JobRow) : JobRow :=
  if pos < len then
    updateExportJob (completionUpdates (total + (len - pos)) now)
      (updateExportJob (batchUpdates (total + (len - pos)) len) j)
  else
    updateExportJob (completionUpdates total now) j

theorem pagerRun_jobs (src : List CustomerData) (ps : Nat) (hps : 0 < ps)
    (storeName jid now : String) :
    ∀ fuel pos total (st : DbState) (j : JobRow),
      src.length - pos < fuel → pos ≤ src.length →
      getExportJob st.jobs jid = some j →
      getExportJob (pagerRun src ps storeName jid now fuel pos total st).jobs jid
        = some (pagerFinalJob now src.length pos total j) := by
  intro fuel
  induction fuel with
  | zero =>
    intro pos total st j hfuel
    omega
  | succ fuel ih =>
    intro pos total st j hfuel hpos hj
    rw [pagerRun]
    by_cases h : pos + ps < src.length
    · rw [if_pos h]
      have hlen : ((src.drop pos).take ps).length = ps := by
        simp only [List.length_take, List.length_drop]
        omega
      have hne : (src.drop pos).take ps ≠ [] := by
        intro hcontra
        rw [hcontra] at hlen
        simp at hlen
        omega
      rw [commitPage_of_ne_nil src ps storeName jid now pos total st hne, hlen]
      have hj' : getExportJob (updateExportJobIn st.jobs jid (batchUpdates (total + ps) (pos + ps))) jid
          = some (updateExportJob (batchUpdates (total + ps) (pos + ps)) j) := by
        rw [getExportJob_updateExportJobIn, hj]
        rfl
      rw [ih (pos + ps) (total + ps) _ _ (by omega) (by omega) hj']
      unfold pagerFinalJob
      rw [if_pos h, if_pos (by omega : pos < src.length)]
      rw [updateExportJob_batch_batch]
      have harith : total + ps + (src.length - (pos + ps)) = total + (src.length - pos) := by
        omega
      rw [harith]
    · rw [if_neg h]
      by_cases h2 : pos < src.length
      · have hlen : ((src.drop pos).take ps).length = src.length - pos := by
          simp only [List.length_take, List.length_drop]
          omega
        have hne : (src.drop pos).take ps ≠ [] := by
          intro hcontra
          rw [hcontra] at hlen
          simp at hlen
          omega
        unfold completeRun
        rw [commitPage_of_ne_nil src ps storeName jid now pos total st hne, hlen]
        rw [getExportJob_updateExportJobIn, getExportJob_updateExportJobIn, hj]
        unfold pagerFinalJob
        rw [if_pos h2]
        have harith : pos + (src.length - pos) = src.length := by omega
        rw [harith]
        rfl
      · have hpl : pos = src.length := by omega
        have hnil : (src.drop pos).take ps = [] := by
          rw [hpl, List.drop_length, List.take_nil]
        unfold completeRun
        rw [commitPage_of_nil src ps storeName jid now pos total st hnil, hnil]
        rw [getExportJob_updateExportJobIn, hj]
        unfold pagerFinalJob
        rw [if_neg h2]
        simp

/-- Stepping invariants of the loop: committing the page at `pos` keeps the
batches still to come fresh with respect to the grown table, and splits the
no-duplicates property of the remaining stream. -/
theorem fresh_nodup_step (src : List CustomerData) (ps pos : Nat) (now storeName : String)
    (cust : List CustomerRow)
    (hfresh : ∀ c ∈ src.drop pos, ∀ r ∈ cust, r.id ≠ c.id)
    (hnd : ((src.drop pos).map CustomerData.id).Nodup) :
    (∀ c ∈ src.drop (pos + ps),
        ∀ r ∈ cust ++ ((src.drop pos).take ps).map (customerRowOf now storeName),
          r.id ≠ c.id)
    ∧ ((src.drop (pos + ps)).map CustomerData.id).Nodup
    ∧ (∀ c ∈ (src.drop pos).take ps, ∀ r ∈ cust, r.id ≠ c.id)
    ∧ (((src.drop pos).take ps).map CustomerData.id).Nodup := by
  have hdd : src.drop (pos + ps) = (src.drop pos).drop ps := (List.drop_drop ps pos src).symm
  have hsplit : ((src.drop pos).take ps).map CustomerData.id
      ++ ((src.drop pos).drop ps).map CustomerData.id
      = (src.drop pos).map CustomerData.id := by
    rw [← List.map_append, List.take_append_drop]
  have hnd2 : (((src.drop pos).take ps).map CustomerData.id
      ++ ((src.drop pos).drop ps).map CustomerData.id).Nodup := by
    rw [hsplit]
    exact hnd
  have hdisj : (((src.drop pos).take ps).map CustomerData.id).Disjoint
      (((src.drop pos).drop ps).map CustomerData.id) :=
    List.disjoint_of_nodup_append hnd2
  refine ⟨?_, ?_, ?_, ?_⟩
  · intro c hc r hr
    rcases List.mem_append.mp hr with h1 | h1
    · exact hfresh c (List.mem_of_mem_drop (by rw [← hdd]; exact hc) : c ∈ src.drop pos) r h1
    · rcases List.mem_map.mp h1 with ⟨c', hc', hrc⟩
      subst hrc
      show (customerRowOf now storeName c').id ≠ c.id
      intro hEq
      have hmem1 : c'.id ∈ ((src.drop pos).take ps).map CustomerData.id :=
        List.mem_map_of_mem CustomerData.id hc'
      have hmem2 : c.id ∈ ((src.drop pos).drop ps).map CustomerData.id := by
        rw [← hdd]
        exact List.mem_map_of_mem CustomerData.id hc
      have : c'.id = c.id := hEq
      rw [this] at hmem1
      exact hdisj hmem1 hmem2
  · rw [hdd]
    exact ((List.nodup_append.mp hnd2).2).1
  · intro c hc r hr
    exact hfresh c (List.take_subset ps (src.drop pos) hc) r hr
  · exact (List.nodup_append.mp hnd2).1

/-- The customers table after a successful `pagerRun`: the rows for every
record at or past `pos`, appended in stream order. -/
theorem pagerRun_customers (src : List CustomerData) (ps : Nat) (hps : 0 < ps)
    (storeName jid now : String) :
    ∀ fuel pos total (st : DbState),
      src.length - pos < fuel → pos ≤ src.length →
      (∀ c ∈ src.drop pos, ∀ r ∈ st.customers, r.id ≠ c.id) →
      ((src.drop pos).map CustomerData.id).Nodup →
      (pagerRun src ps storeName jid now fuel pos total st).customers
        = st.customers ++ (src.drop pos).map (customerRowOf now storeName) := by
  intro fuel
  induction fuel with
  | zero =>
    intro pos total st hfuel
    omega
  | succ fuel ih =>
    intro pos total st hfuel hpos hfresh hnd
    obtain ⟨hstep_fresh, hstep_nd, hpage_fresh, hpage_nd⟩ :=
      fresh_nodup_step src ps pos now storeName st.customers hfresh hnd
    rw [pagerRun]
    by_cases h : pos + ps < src.length
    · rw [if_pos h]
      have hlen : ((src.drop pos).take ps).length = ps := by
        simp only [List.length_take, List.length_drop]
        omega
      have hne : (src.drop pos).take ps ≠ [] := by
        intro hcontra
        rw [hcontra] at hlen
        simp at hlen
        omega
      rw [commitPage_of_ne_nil src ps storeName jid now pos total st hne, hlen]
      have hsave : saveCustomers now storeName ((src.drop pos).take ps) st.customers
          = st.customers ++ ((src.drop pos).take ps).map (customerRowOf now storeName) :=
        saveCustomers_append_of_fresh now storeName _ st.customers hpage_fresh hpage_nd
      rw [ih (pos + ps) (total + ps)
          ⟨saveCustomers now storeName ((src.drop pos).take ps) st.customers,
           updateExportJobIn st.jobs jid (batchUpdates (total + ps) (pos + ps))⟩
          (by omega) (by omega)
          (by
            show ∀ c ∈ src.drop (pos + ps),
              ∀ r ∈ saveCustomers now storeName ((src.drop pos).take ps) st.customers, r.id ≠ c.id
            rw [hsave]
            exact hstep_fresh)
          hstep_nd]
      rw [hsave]
      rw [List.append_assoc, ← List.map_append]
      have hdd : src.drop (pos + ps) = (src.drop pos).drop ps := (List.drop_drop ps pos src).symm
      rw [hdd, List.take_append_drop]
    · rw [if_neg h]
      by_cases h2 : pos < src.length
      · have htake : (src.drop pos).take ps = src.drop pos := by
          apply List.take_of_length_le
          simp only [List.length_drop]
          omega
        have hne : (src.drop pos).take ps ≠ [] := by
          rw [htake]
          intro hcontra
          have := congrArg List.length hcontra
          simp at this
          omega
        unfold completeRun
        rw [commitPage_of_ne_nil src ps storeName jid now pos total st hne]
        show saveCustomers now storeName ((src.drop pos).take ps) st.customers
          = st.customers ++ (src.drop pos).map (customerRowOf now storeName)
        rw [saveCustomers_append_of_fresh now storeName _ st.customers hpage_fresh hpage_nd, htake]
      · have hnil : (src.drop pos).take ps = [] := by
          have hpl : pos = src.length := by omega
          rw [hpl, List.drop_length, List.take_nil]
        unfold completeRun
        rw [commitPage_of_nil src ps storeName jid now pos total st hnil]
        show st.customers = st.customers ++ (src.drop pos).map (customerRowOf now storeName)
        have hpl : pos = src.length := by omega
        rw [hpl, List.drop_length]
        simp

/-- The job row after a run that commits `k` full pages and then fails:
the failure update over the last committed checkpoint. -/
theorem pagerRunFailAfter_jobs (src : List CustomerData) (ps : Nat) (hps : 0 < ps)
    (storeName jid errMsg now : String) :
    ∀ k pos total (st : DbState) (j : JobRow),
      pos + k * ps ≤ src.length →
      getExportJob st.jobs jid = some j →
      getExportJob (pagerRunFailAfter src ps storeName jid errMsg now k pos total st).jobs jid
        = some (updateExportJob (failureUpdates errMsg now)
            (if k = 0 then j
             else updateExportJob (batchUpdates (total + k * ps) (pos + k * ps)) j)) := by
  intro k
  induction k with
  | zero =>
    intro pos total st j _ hj
    show getExportJob (updateExportJobIn st.jobs jid (failureUpdates errMsg now)) jid = _
    rw [getExportJob_updateExportJobIn, hj]
    rfl
  | succ k ih =>
    intro pos total st j hk hj
    have hmul : (k + 1) * ps = k * ps + ps := Nat.succ_mul k ps
    have hlen : ((src.drop pos).take ps).length = ps := by
      simp only [List.length_take, List.length_drop]
      omega
    have hne : (src.drop pos).take ps ≠ [] := by
      intro hcontra
      rw [hcontra] at hlen
      simp at hlen
      omega
    show getExportJob (pagerRunFailAfter src ps storeName jid errMsg now k
        (pos + ((src.drop pos).take ps).length) (total + ((src.drop pos).take ps).length)
        (commitPage src ps storeName jid now pos total st)).jobs jid = _
    rw [commitPage_of_ne_nil src ps storeName jid now pos total st hne, hlen]
    have hj' : getExportJob
        (updateExportJobIn st.jobs jid (batchUpdates (total + ps) (pos + ps))) jid
        = some (updateExportJob (batchUpdates (total + ps) (pos + ps)) j) := by
      rw [getExportJob_updateExportJobIn, hj]
      rfl
    rw [ih (pos + ps) (total + ps) _ _ (by omega) hj']
    by_cases hk0 : k = 0
    · subst hk0
      simp
    · rw [if_neg hk0, if_neg (by omega : ¬ k + 1 = 0)]
      rw [updateExportJob_batch_batch]
      have h1 : total + ps + k * ps = total + (k + 1) * ps := by omega
      have h2 : pos + ps + k * ps = pos + (k + 1) * ps := by omega
      rw [h1, h2]

/-- The customers table after a run that commits `k` full pages and then
fails: exactly the first `k * ps` records at or past `pos`, appended. -/
theorem pagerRunFailAfter_customers (src : List CustomerData) (ps : Nat) (hps : 0 < ps)
    (storeName jid errMsg now : String) :
    ∀ k pos total (st : DbState),
      pos + k * ps ≤ src.length →
      (∀ c ∈ src.drop pos, ∀ r ∈ st.customers, r.id ≠ c.id) →
      ((src.drop pos).map CustomerData.id).Nodup →
      (pagerRunFailAfter src ps storeName jid errMsg now k pos total st).customers
        = st.customers ++ ((src.drop pos).take (k * ps)).map (customerRowOf now storeName) := by
  intro k
  induction k with
  | zero =>
    intro pos total st _ _ _
    show st.customers = st.customers ++ ((src.drop pos).take (0 * ps)).map _
    simp
  | succ k ih =>
    intro pos total st hk hfresh hnd
    have hmul : (k + 1) * ps = k * ps + ps := Nat.succ_mul k ps
    obtain ⟨hstep_fresh, hstep_nd, hpage_fresh, hpage_nd⟩ :=
      fresh_nodup_step src ps pos now storeName st.customers hfresh hnd
    have hlen : ((src.drop pos).take ps).length = ps := by
      simp only [List.length_take, List.length_drop]
      omega
    have hne : (src.drop pos).take ps ≠ [] := by
      intro hcontra
      rw [hcontra] at hlen
      simp at hlen
      omega
    show (pagerRunFailAfter src ps storeName jid errMsg now k
        (pos + ((src.drop pos).take ps).length) (total + ((src.drop pos).take ps).length)
        (commitPage src ps storeName jid now pos total st)).customers = _
    rw [commitPage_of_ne_nil src ps storeName jid now pos total st hne, hlen]
    have hsave : saveCustomers now storeName ((src.drop pos).take ps) st.customers
        = st.customers ++ ((src.drop pos).take ps).map (customerRowOf now storeName) :=
      saveCustomers_append_of_fresh now storeName _ st.customers hpage_fresh hpage_nd
    rw [ih (pos + ps) (total + ps)
        ⟨saveCustomers now storeName ((src.drop pos).take ps) st.customers,
         updateExportJobIn st.jobs jid (batchUpdates (total + ps) (pos + ps))⟩
        (by omega)
        (by
          show ∀ c ∈ src.drop (pos + ps),
            ∀ r ∈ saveCustomers now storeName ((src.drop pos).take ps) st.customers, r.id ≠ c.id
          rw [hsave]
          exact hstep_fresh)
        hstep_nd]
    rw [hsave]
    rw [List.append_assoc, ← List.map_append]
    have hdd : src.drop (pos + ps) = (src.drop pos).drop ps := (List.drop_drop ps pos src).symm
    rw [hdd, ← List.take_add]
    rw [show ps + k * ps = (k + 1) * ps by omega]

/-! ## The ORDER BY model: totality, transitivity, stability -/

theorem charListLe_total : ∀ a b : List Char, charListLe a b = true ∨ charListLe b a = true
  | [], _ => Or.inl rfl
  | _ :: _, [] => Or.inr rfl
  | a :: as, b :: bs => by
    unfold charListLe
    by_cases h1 : a.toNat < b.toNat
    · left
      rw [if_pos h1]
    · by_cases h2 : b.toNat < a.toNat
      · right
        rw [if_pos h2]
      · rw [if_neg h1, if_neg h2, if_neg h2, if_neg h1]
        exact charListLe_total as bs

theorem charListLe_trans :
    ∀ (a b c : List Char), charListLe a b = true → charListLe b c = true →
      charListLe a c = true
  | [], _, _, _, _ => rfl
  | _ :: _, [], _, hab, _ => by simp [charListLe] at hab
  | _ :: _, _ :: _, [], _, hbc => by simp [charListLe] at hbc
  | a :: as, b :: bs, c :: cs, hab, hbc => by
    unfold charListLe at hab hbc ⊢
    have hba : ¬ b.toNat < a.toNat := by
      intro h2
      rw [if_neg (by omega), if_pos h2] at hab
      simp at hab
    have hcb : ¬ c.toNat < b.toNat := by
      intro h4
      rw [if_neg (by omega), if_pos h4] at hbc
      simp at hbc
    by_cases h1 : a.toNat < b.toNat
    · by_cases h3 : b.toNat < c.toNat
      · rw [if_pos (show a.toNat < c.toNat by omega)]
      · rw [if_pos (show a.toNat < c.toNat by omega)]
    · by_cases h3 : b.toNat < c.toNat
      · rw [if_pos (show a.toNat < c.toNat by omega)]
      · rw [if_neg (show ¬ a.toNat < c.toNat by omega),
            if_neg (show ¬ c.toNat < a.toNat by omega)]
        rw [if_neg h1, if_neg hba] at hab
        rw [if_neg h3, if_neg hcb] at hbc
        exact charListLe_trans as bs cs hab hbc

theorem textLe_total (a b : String) : textLe a b = true ∨ textLe b a = true :=
  charListLe_total a.data b.data

theorem textLe_trans {a b c : String} (h1 : textLe a b = true) (h2 : textLe b c = true) :
    textLe a c = true :=
  charListLe_trans a.data b.data c.data h1 h2

theorem sortInsert_perm {α : Type} (le : α → α → Bool) (a : α) :
    ∀ l : List α, (sortInsert le a l).Perm (a :: l)
  | [] => List.Perm.refl _
  | b :: l => by
    unfold sortInsert
    by_cases h : le a b = true
    · rw [if_pos h]
    · rw [if_neg h]
      exact (List.Perm.cons b (sortInsert_perm le a l)).trans (List.Perm.swap a b l)

theorem stableSort_perm {α : Type} (le : α → α → Bool) :
    ∀ l : List α, (stableSort le l).Perm l
  | [] => List.Perm.refl _
  | a :: l =>
    (sortInsert_perm le a (stableSort le l)).trans (List.Perm.cons a (stableSort_perm le l))

theorem mem_sortInsert {α : Type} (le : α → α → Bool) (a x : α) (l : List α) :
    x ∈ sortInsert le a l ↔ x = a ∨ x ∈ l := by
  rw [(sortInsert_perm le a l).mem_iff]
  simp

theorem sortInsert_pairwise {α : Type} (le : α → α → Bool)
    (htot : ∀ a b, le a b = true ∨ le b a = true)
    (htrans : ∀ a b c, le a b = true → le b c = true → le a c = true)
    (a : α) : ∀ l : List α, l.Pairwise (fun x y => le x y = true) →
      (sortInsert le a l).Pairwise (fun x y => le x y = true)
  | [], _ => by simp [sortInsert]
  | b :: l, h => by
    rcases List.pairwise_cons.mp h with ⟨hb, hl⟩
    unfold sortInsert
    by_cases hab : le a b = true
    · rw [if_pos hab]
      refine List.pairwise_cons.mpr ⟨?_, h⟩
      intro x hx
      rcases List.mem_cons.mp hx with h1 | h1
      · rw [h1]
        exact hab
      · exact htrans a b x hab (hb x h1)
    · rw [if_neg hab]
      refine List.pairwise_cons.mpr ⟨?_, sortInsert_pairwise le htot htrans a l hl⟩
      intro x hx
      rcases (mem_sortInsert le a x l).mp hx with h1 | h1
      · rw [h1]
        rcases htot a b with h2 | h2
        · exact absurd h2 hab
        · exact h2
      · exact hb x h1

theorem stableSort_pairwise {α : Type} (le : α → α → Bool) (l : List α)
    (htot : ∀ a b, le a b = true ∨ le b a = true)
    (htrans : ∀ a b c, le a b = true → le b c = true → le a c = true) :
    (stableSort le l).Pairwise (fun x y => le x y = true) := by
  induction l with
  | nil => simp [stableSort]
  | cons a l ih => exact sortInsert_pairwise le htot htrans a _ ih

/-! ## Concrete fixtures -/

/-- A minimal customer document, used for concrete instantiations. -/
def mkCustomer (i : String) : CustomerData :=
  { id := i
  , firstName := none
  , lastName := none
  , displayName := ""
  , emailAddress := none
  , phoneNumber := none
  , verifiedEmail := false
  , state := ""
  , locale := none
  , note := none
  , tags := []
  , createdAt := ""
  , updatedAt := ""
  , amountSpent := none
  , numberOfOrders := ""
  , lifetimeDuration := none
  , addresses := []
  , defaultAddress := none
  , lastOrder := none
  , productSubscriberStatus := none
  , mergeable := none
  , originalCreatedDate := none
  , eventsNodes := []
  , ordersNodes := []
  , statistics := none }

/-- A customer whose note contains a quote character. -/
def noteCustomer : CustomerData :=
  { mkCustomer "c1" with note := some "a\"b" }

/-! ## C8 — CSV escaping round-trip -/

/-- C8 counterexample: the claim says an RFC4180 re-parse of the emitted
row recovers the original field value for EVERY column. For the `note`
column it does not: `customerToCSVRow` pre-doubles the note's quotes before
`escapeCSVField` runs, so a note of `a"b` is emitted as the field `a""b`
and re-parses to `a""b`, not to the original `a"b`. -/
theorem c8_note_not_roundtrip :
    noteCustomer.note = some "a\"b" ∧
    (customerToCSVRow noteCustomer).getD 9 "" = "a\"\"b" ∧
    parseCSVField (escapeCSVField ((customerToCSVRow noteCustomer).getD 9 "")) = "a\"\"b" ∧
    ("a\"\"b" : String) ≠ "a\"b" := by
  refine ⟨rfl, rfl, ?_, by decide⟩
  decide

/-- C8 (amended): every field emitted by the materializer is escaped per
RFC4180 (quoted with internal quotes doubled when it contains a comma,
quote or newline) and re-parses to exactly the value `customerToCSVRow`
produced; every column except `note` emits the record's field value
unchanged, while the `note` column emits the note with its quote characters
already doubled once. -/
theorem c8_csv_roundtrip_amended (customer : CustomerData) (v : String)
    (hv : v ∈ customerToCSVRow customer) :
    parseCSVField (escapeCSVField v) = v ∧
    (customerToCSVRow customer).getD 9 "" = dupQuotes (orEmpty customer.note) :=
  ⟨parseCSVField_escapeCSVField v, rfl⟩

theorem c8_csv_roundtrip_amended_witness :
    parseCSVField (escapeCSVField "c1") = "c1" ∧
    (customerToCSVRow noteCustomer).getD 9 "" = dupQuotes (orEmpty noteCustomer.note) :=
  c8_csv_roundtrip_amended noteCustomer "c1" (by decide)

/-! ## C9 — idempotent upsert -/

/-- C9 counterexample: applying `upsert(P)` twice does NOT leave the cache
identical to applying it once — the `updated_at` (`cachedAt`) column holds
the write time of the second application, exactly because it is refreshed
on every upsert. -/
theorem c9_upsert_counterexample :
    (saveCustomers "t2" "evisu-us" [mkCustomer "c1"]
        (saveCustomers "t1" "evisu-us" [mkCustomer "c1"] [])).map CustomerRow.updated_at
      = ["t2"] ∧
    (saveCustomers "t1" "evisu-us" [mkCustomer "c1"] []).map CustomerRow.updated_at
      = ["t1"] ∧
    ("t2" : String) ≠ "t1" := by
  refine ⟨rfl, rfl, by decide⟩

/-- C9 (amended): the upsert is idempotent up to the write time stamped in
`created_at`/`updated_at`: applying `upsert(P)` twice leaves exactly the
cache a single application at the second write time produces — the same
rows in the same order with identical keys and payloads; with equal write
times (`now2 = now1`) the two-application and one-application states are
literally identical. -/
theorem c9_upsert_idempotent_amended (now1 now2 storeName : String)
    (P : List CustomerData) (t : List CustomerRow) :
    saveCustomers now2 storeName P (saveCustomers now1 storeName P t)
      = saveCustomers now2 storeName P t :=
  saveCustomers_supersedes now1 now2 storeName P t

/-! ## C4 — cache key -/

/-- C4 counterexample: the `customers` table's primary key is `id` alone,
so caching the same customer id under two different stores leaves ONE row,
owned by the later store — the two collections' entries do not coexist and
the replace does not require the collection to match. -/
theorem c4_key_counterexample :
    (saveCustomers "t2" "evisu-hk" [mkCustomer "c1"]
        (saveCustomers "t1" "evisu-us" [mkCustomer "c1"] [])).map
          (fun r => (r.store_name, r.id))
      = [("evisu-hk", "c1")] := rfl

/-- Upserting the same customer twice (any stores, any times) leaves the
other rows filtered of that id, followed by the one row of the last write. -/
theorem saveCustomers_single_twice (now1 now2 s1 s2 : String) (c : CustomerData)
    (t : List CustomerRow) :
    saveCustomers now2 s2 [c] (saveCustomers now1 s1 [c] t)
      = t.filter (fun r => r.id != c.id) ++ [customerRowOf now2 s2 c] := by
  show insertOrReplace (insertOrReplace t (customerRowOf now1 s1 c)) (customerRowOf now2 s2 c) = _
  unfold insertOrReplace
  rw [List.filter_append, List.filter_filter]
  have hid1 : (customerRowOf now1 s1 c).id = c.id := rfl
  have hid2 : (customerRowOf now2 s2 c).id = c.id := rfl
  rw [show ([customerRowOf now1 s1 c].filter fun x => x.id != (customerRowOf now2 s2 c).id) = [] from by
    simp [hid1, hid2, bne]]
  rw [List.append_nil]
  congr 1
  apply List.filter_congr
  intro r _
  rw [hid1, hid2, Bool.and_self]

/-- C4 (amended): cached records are uniquely keyed by `externalId` alone,
with upsert semantics that replace whenever the external id matches,
regardless of collection: after re-caching an id under a second collection
the table stays duplicate-free and its only row for that id is the second
collection's row. -/
theorem c4_key_amended (now1 now2 s1 s2 : String) (c : CustomerData) (t : List CustomerRow)
    (hnd : (t.map CustomerRow.id).Nodup) :
    ((saveCustomers now2 s2 [c] (saveCustomers now1 s1 [c] t)).map CustomerRow.id).Nodup ∧
    (saveCustomers now2 s2 [c] (saveCustomers now1 s1 [c] t)).filter (fun r => r.id == c.id)
      = [customerRowOf now2 s2 c] := by
  rw [saveCustomers_single_twice]
  constructor
  · rw [List.map_append]
    rw [List.nodup_append]
    refine ⟨?_, by simp, ?_⟩
    · exact hnd.sublist ((List.filter_sublist t).map CustomerRow.id)
    · intro x hx hy
      simp only [List.map_cons, List.map_nil, List.mem_singleton] at hy
      rcases List.mem_map.mp hx with ⟨r, hr, hrx⟩
      have hrne : (r.id != c.id) = true := (List.mem_filter.mp hr).2
      rw [← hrx] at hy
      rw [show (customerRowOf now2 s2 c).id = c.id from rfl] at hy
      rw [hy] at hrne
      simp at hrne
  · rw [List.filter_append]
    rw [show (t.filter (fun r => r.id != c.id)).filter (fun r => r.id == c.id) = [] from by
      rw [List.filter_filter, List.filter_eq_nil_iff]
      intro r _
      by_cases h : r.id = c.id <;> simp [h]]
    rw [List.nil_append]
    simp [customerRowOf]

theorem c4_key_amended_witness :
    ((saveCustomers "t2" "evisu-hk" [mkCustomer "c1"]
        (saveCustomers "t1" "evisu-us" [mkCustomer "c1"] [])).map CustomerRow.id).Nodup ∧
    (saveCustomers "t2" "evisu-hk" [mkCustomer "c1"]
        (saveCustomers "t1" "evisu-us" [mkCustomer "c1"] [])).filter
          (fun r => r.id == (mkCustomer "c1").id)
      = [customerRowOf "t2" "evisu-hk" (mkCustomer "c1")] :=
  c4_key_amended "t1" "t2" "evisu-us" "evisu-hk" (mkCustomer "c1") [] (by decide)

/-! ## C7 — getAll ordering -/

/-- The ordering the SPEC claims for `getAll`: `cachedAt` (`updated_at`)
descending, then `externalId` (`id`) ascending as a deterministic
tie-break. Written from the spec's words, for comparison with the query
`getCustomersByStore` actually runs. -/
def getCustomersByStore_specOrdered (storeName : String) (table : List CustomerRow) :
    List CustomerData :=
  (stableSort
    (fun a b =>
      if a.updated_at = b.updated_at then textLe a.id b.id
      else textLe b.updated_at a.updated_at)
    (table.filter (fun r => r.store_name == storeName))).map CustomerRow.data

/-- One page committed in one transaction: both rows share `updated_at`. -/
def c7Table : List CustomerRow :=
  saveCustomers "t1" "evisu-us" [mkCustomer "b", mkCustomer "a"] []

/-- C7 counterexample: `getCustomersByStore` runs `ORDER BY updated_at
DESC` with NO tie-break, so two rows of one committed batch (equal
`updated_at`) come back in table order (`b` before `a`), not in the
`externalId`-ascending order the claim states. -/
theorem c7_order_counterexample :
    (getCustomersByStore "evisu-us" c7Table).map CustomerData.id = ["b", "a"] ∧
    (getCustomersByStore_specOrdered "evisu-us" c7Table).map CustomerData.id = ["a", "b"] ∧
    (["b", "a"] : List String) ≠ ["a", "b"] := by
  refine ⟨by decide, by decide, by decide⟩

/-- C7 (amended): `getCustomersByStore` returns the store's cached rows
ordered by `cachedAt` (`updated_at`) descending ONLY — ties are left in
the stored order, with no `externalId` tie-break — and it returns exactly
those rows (a permutation of the store's table entries); being a function
of the cache, materializing an unchanged collection twice yields identical
output. -/
theorem c7_order_amended (storeName : String) (table : List CustomerRow) :
    (storeRowsSorted storeName table).Pairwise
      (fun a b => textLe b.updated_at a.updated_at = true) ∧
    (storeRowsSorted storeName table).Perm
      (table.filter (fun r => r.store_name == storeName)) := by
  constructor
  · exact stableSort_pairwise _ _
      (fun a b => textLe_total b.updated_at a.updated_at)
      (fun a b c hab hbc => textLe_trans hbc hab)
  · exact stableSort_perm _ _

/-! ## C10 — output path -/

/-- C10: the CSV output path is a function of only the store name and the
UTC date (`exports/customers-<store>-<YYYY-MM-DD>.csv`; the time-of-day,
milliseconds and zone are cut off at the `'T'`), and the stream is opened
with flag `w` (truncate) — so a second materialize call for the same store
on the same UTC date writes the same path and replaces the first call's
artifact. -/
theorem c10_output_path (storeName : String) (t1 t2 : UTCTime)
    (content1 content2 : String) (files : String → Option String)
    (hdate : t1.year = t2.year ∧ t1.month = t2.month ∧ t1.day = t2.day) :
    csvOutputFile storeName t1 = csvOutputFile storeName t2 ∧
    writeFileTrunc (writeFileTrunc files (csvOutputFile storeName t1) content1)
        (csvOutputFile storeName t2) content2 (csvOutputFile storeName t1)
      = some content2 := by
  obtain ⟨hy, hm, hd⟩ := hdate
  have hpath : csvOutputFile storeName t1 = csvOutputFile storeName t2 := by
    unfold csvOutputFile
    rw [csvTimestamp_eq_isoDatePart, csvTimestamp_eq_isoDatePart]
    unfold isoDatePart
    rw [hy, hm, hd]
  refine ⟨hpath, ?_⟩
  rw [hpath]
  unfold writeFileTrunc
  rw [if_pos rfl]

theorem c10_output_path_witness :
    csvOutputFile "evisu-us" ⟨2025, 11, 13, 7, 0, 0, 0⟩
      = csvOutputFile "evisu-us" ⟨2025, 11, 13, 22, 30, 5, 123⟩ ∧
    writeFileTrunc
        (writeFileTrunc (fun _ => none)
          (csvOutputFile "evisu-us" ⟨2025, 11, 13, 7, 0, 0, 0⟩) "csv1")
        (csvOutputFile "evisu-us" ⟨2025, 11, 13, 22, 30, 5, 123⟩) "csv2"
        (csvOutputFile "evisu-us" ⟨2025, 11, 13, 7, 0, 0, 0⟩)
      = some "csv2" :=
  c10_output_path "evisu-us" ⟨2025, 11, 13, 7, 0, 0, 0⟩ ⟨2025, 11, 13, 22, 30, 5, 123⟩
    "csv1" "csv2" (fun _ => none) (by decide)

/-! ## C5 — single active job -/

/-- A failed job for evisu-us holding a checkpoint. -/
def c5FailedJob : JobRow :=
  { newExportJob "job0" "evisu-us" "2025-11-13T00:00:00.000Z" with
      status := JobStatus.failed
    , processed_customers := 250
    , last_cursor := some 250 }

/-- C5 counterexample: a non-terminal (`failed`) job exists for evisu-us in
the export_jobs table and no export is marked active, yet the start route
ACCEPTS the request — the conflict check reads only the in-memory
`activeExports` registry, never the job table — and the run creates a
second job row. -/
theorem c5_start_counterexample :
    (c5FailedJob.store_name = "evisu-us" ∧ c5FailedJob.status ≠ JobStatus.completed) ∧
    resolveStart [] "evisu-us" = StartDecision.accepted ∧
    resolveStart [] "evisu-us" ≠ StartDecision.conflict ∧
    (startRequestRun [] 250 "job1" "t0" "t1" ⟨[], [c5FailedJob]⟩ [] "evisu-us").jobs.length
      = 2 := by
  refine ⟨⟨rfl, by decide⟩, by decide, by decide, by decide⟩

/-- C5 (amended): for a configured store, a start request fails with
ConflictError exactly when the in-memory `activeExports` registry holds the
collection (an export or resume currently running in this process); the
rejection leaves all state unchanged. A `failed` (or orphaned) job row in
the database does not block a new start. -/
theorem c5_start_amended (src : List CustomerData) (ps : Nat)
    (newJobId startedAt now : String) (st : DbState) (active : List String)
    (storeName : String) (hstore : storeName ∈ storeNames) :
    (storeName ∈ active →
      resolveStart active storeName = StartDecision.conflict ∧
      startRequestRun src ps newJobId startedAt now st active storeName = st) ∧
    (storeName ∉ active → resolveStart active storeName = StartDecision.accepted) := by
  constructor
  · intro ha
    have hdec : resolveStart active storeName = StartDecision.conflict := by
      unfold resolveStart
      rw [if_neg (fun hno => hno hstore), if_pos ha]
    refine ⟨hdec, ?_⟩
    unfold startRequestRun
    rw [hdec]
  · intro ha
    unfold resolveStart
    rw [if_neg (fun hno => hno hstore), if_neg ha]

theorem c5_start_amended_witness :
    resolveStart ["evisu-us"] "evisu-us" = StartDecision.conflict ∧
    startRequestRun [] 250 "job1" "t0" "t1" ⟨[], [c5FailedJob]⟩ ["evisu-us"] "evisu-us"
      = ⟨[], [c5FailedJob]⟩ :=
  (c5_start_amended [] 250 "job1" "t0" "t1" ⟨[], [c5FailedJob]⟩ ["evisu-us"] "evisu-us"
    (by decide)).1 (by decide)

/-! ## C6 — resume of completed / cursor-less jobs -/

/-- C6: a resume request that targets (by explicit job id) a job that is
`completed`, or whose stored cursor is NULL, is rejected with a 400 — the
spec's InvalidStateError — and mutates nothing: the database state is
unchanged no matter how many times the request is repeated. (The route
checks the status before the cursor, so a completed job always yields the
status rejection.) -/
theorem c6_resume_rejected (src : List CustomerData) (ps : Nat)
    (newJobId startedAt now : String) (st : DbState) (active : List String)
    (storeName jid : String) (j : JobRow) (n : Nat)
    (hstore : storeName ∈ storeNames) (hactive : storeName ∉ active)
    (hfind : getExportJob st.jobs jid = some j)
    (hbad : j.status = JobStatus.completed ∨ j.last_cursor = none) :
    (resolveResume st active storeName (some jid)
        = ResumeDecision.invalidState j.status j.id ∨
     resolveResume st active storeName (some jid) = ResumeDecision.noCursor j.id) ∧
    (fun s => resumeRequestRun src ps newJobId startedAt now s active storeName (some jid))^[n]
        st = st := by
  have hfindJob : findJobToResume st.jobs storeName (some jid) = some j := by
    unfold findJobToResume
    rw [show (some jid).bind (getExportJob st.jobs) = some j from by simpa using hfind]
  have hred : resolveResume st active storeName (some jid)
      = (if j.status ≠ JobStatus.failed ∧ j.status ≠ JobStatus.in_progress then
          ResumeDecision.invalidState j.status j.id
        else
          match j.last_cursor with
          | none => ResumeDecision.noCursor j.id
          | some c => ResumeDecision.accepted j.id c j.processed_customers) := by
    unfold resolveResume
    rw [if_neg (fun hno => hno hstore), if_neg hactive, hfindJob]
  have hres : resolveResume st active storeName (some jid)
        = ResumeDecision.invalidState j.status j.id ∨
      resolveResume st active storeName (some jid) = ResumeDecision.noCursor j.id := by
    rw [hred]
    by_cases hstat : j.status ≠ JobStatus.failed ∧ j.status ≠ JobStatus.in_progress
    · left
      rw [if_pos hstat]
    · right
      rw [if_neg hstat]
      have hcur : j.last_cursor = none := by
        rcases hbad with h | h
        · exact absurd ⟨(by rw [h]; decide), (by rw [h]; decide)⟩ hstat
        · exact h
      rw [hcur]
  refine ⟨hres, ?_⟩
  have hstep : resumeRequestRun src ps newJobId startedAt now st active storeName (some jid)
      = st := by
    unfold resumeRequestRun
    rcases hres with h | h <;> rw [h]
  exact Function.iterate_fixed hstep n

def c6CompletedJob : JobRow :=
  { newExportJob "jobC" "evisu-us" "2025-11-13T00:00:00.000Z" with
      status := JobStatus.completed
    , processed_customers := 520
    , total_customers := 520
    , last_cursor := some 520 }

theorem c6_resume_rejected_witness :
    (resolveResume ⟨[], [c6CompletedJob]⟩ [] "evisu-us" (some "jobC")
        = ResumeDecision.invalidState c6CompletedJob.status c6CompletedJob.id ∨
     resolveResume ⟨[], [c6CompletedJob]⟩ [] "evisu-us" (some "jobC")
        = ResumeDecision.noCursor c6CompletedJob.id) ∧
    (fun s => resumeRequestRun [] 250 "nj" "t0" "t1" s [] "evisu-us" (some "jobC"))^[3]
        ⟨[], [c6CompletedJob]⟩ = ⟨[], [c6CompletedJob]⟩ :=
  c6_resume_rejected [] 250 "nj" "t0" "t1" ⟨[], [c6CompletedJob]⟩ [] "evisu-us" "jobC"
    c6CompletedJob 3 (by decide) (by decide) (by decide) (Or.inl (by decide))

/-! ## C2 — cursor clearing on completion -/

def c2Src : List CustomerData := [mkCustomer "c1", mkCustomer "c2", mkCustomer "c3"]

/-- C2 (code bug): the claim — and the repository's own documentation —
says `last_cursor` is set NULL exactly on the transition to `completed`.
The code cannot clear it: the completion update passes `lastCursor:
undefined` (IMPLEMENTATION-SUMMARY.md, "Clear on success"), and
`updateExportJob`'s `updates.lastCursor !== undefined` guard skips an
undefined field, so the column keeps the final page's checkpoint. First
conjunct: the completion update leaves `last_cursor` unchanged on every
job row. Rest: a full 3-record, page-size-2 export ends `completed` with
`last_cursor` still holding cursor 3. -/
theorem c2_cursor_never_cleared :
    (∀ (j : JobRow) (total : Nat) (ts : String),
        (updateExportJob (completionUpdates total ts) j).last_cursor = j.last_cursor) ∧
    (getExportJob (startRequestRun c2Src 2 "job1" "t0" "t1" ⟨[], []⟩ [] "evisu-us").jobs
        "job1").map JobRow.status = some JobStatus.completed ∧
    (getExportJob (startRequestRun c2Src 2 "job1" "t0" "t1" ⟨[], []⟩ [] "evisu-us").jobs
        "job1").map JobRow.last_cursor = some (some 3) := by
  refine ⟨fun j total ts => rfl, by decide, by decide⟩

/-! ## C3 — processedCount monotonicity -/

/-- The job's stored `processed_customers`, as `/api/status` reports it. -/
def processedAfter (st : DbState) (jobId : String) : Option Nat :=
  (getExportJob st.jobs jobId).map JobRow.processed_customers

theorem fetchAndSaveCustomers_of_found (src : List CustomerData) (ps : Nat)
    (storeName jid newJobId startedAt now : String) (cur : Cursor) (st : DbState)
    (j : JobRow) (hfind : getExportJob st.jobs jid = some j) :
    fetchAndSaveCustomers src ps storeName (some jid) (some cur) newJobId startedAt now st
      = pagerRun src ps storeName j.id now (src.length + 1) cur j.processed_customers
          ⟨st.customers, updateExportJobIn st.jobs j.id inProgressUpdates⟩ := by
  unfold fetchAndSaveCustomers
  rw [show (some jid).bind (getExportJob st.jobs) = some j from by simpa using hfind]
  rfl

theorem fetchAndSaveFailAfter_of_found (src : List CustomerData) (ps : Nat)
    (storeName jid newJobId startedAt errMsg now : String) (cur : Cursor) (k : Nat)
    (st : DbState) (j : JobRow) (hfind : getExportJob st.jobs jid = some j) :
    fetchAndSaveFailAfter src ps storeName (some jid) (some cur) newJobId startedAt
        errMsg now k st
      = pagerRunFailAfter src ps storeName j.id errMsg now k cur j.processed_customers
          ⟨st.customers, updateExportJobIn st.jobs j.id inProgressUpdates⟩ := by
  unfold fetchAndSaveFailAfter
  rw [show (some jid).bind (getExportJob st.jobs) = some j from by simpa using hfind]
  rfl

theorem fetchAndSaveFailAfter_new (src : List CustomerData) (ps : Nat)
    (storeName newJobId startedAt errMsg now : String) (k : Nat) (st : DbState) :
    fetchAndSaveFailAfter src ps storeName none none newJobId startedAt errMsg now k st
      = pagerRunFailAfter src ps storeName newJobId errMsg now k 0 0
          ⟨st.customers,
           updateExportJobIn (st.jobs ++ [newExportJob newJobId storeName startedAt])
             newJobId inProgressUpdates⟩ := rfl

/-- C3: per-job `processedCount` is monotonically non-decreasing. A resume
of job `j` (stored count `j.processed_customers`, cursor `cur`) that
commits `k` pages stores `j.processed_customers` (when `k = 0`) or
`j.processed_customers + k·ps`; committing more pages never stores less;
and running to completion also never stores less than the value already
stored — in particular no resume ever resets or lowers the count. -/
theorem c3_processed_monotone (src : List CustomerData) (ps : Nat) (hps : 0 < ps)
    (storeName jid newJobId startedAt errMsg now : String)
    (st : DbState) (j : JobRow) (cur : Cursor) (k k' : Nat)
    (hfind : getExportJob st.jobs jid = some j)
    (hkk : k ≤ k') (hk' : cur + k' * ps ≤ src.length) :
    ∃ p p' q,
      processedAfter
        (fetchAndSaveFailAfter src ps storeName (some jid) (some cur) newJobId startedAt
          errMsg now k st) jid = some p ∧
      processedAfter
        (fetchAndSaveFailAfter src ps storeName (some jid) (some cur) newJobId startedAt
          errMsg now k' st) jid = some p' ∧
      processedAfter
        (fetchAndSaveCustomers src ps storeName (some jid) (some cur) newJobId startedAt
          now st) jid = some q ∧
      j.processed_customers ≤ p ∧ p ≤ p' ∧ j.processed_customers ≤ q := by
  have hfind' : st.jobs.find? (fun x => x.id == jid) = some j := hfind
  have hjid : j.id = jid := by
    have h := List.find?_some hfind'
    simpa using h
  subst hjid
  have hmle : k * ps ≤ k' * ps := Nat.mul_le_mul_right ps hkk
  have hkle : cur + k * ps ≤ src.length := le_trans (Nat.add_le_add_left hmle cur) hk'
  have hcurle : cur ≤ src.length := le_trans (Nat.le_add_right cur (k' * ps)) hk'
  have hfuel : src.length - cur < src.length + 1 := by omega
  have hinner : getExportJob (updateExportJobIn st.jobs j.id inProgressUpdates) j.id
      = some (updateExportJob inProgressUpdates j) := by
    rw [getExportJob_updateExportJobIn, hfind]
    rfl
  refine ⟨(if k = 0 then j.processed_customers else j.processed_customers + k * ps),
          (if k' = 0 then j.processed_customers else j.processed_customers + k' * ps),
          (if cur < src.length
            then j.processed_customers + (src.length - cur) else j.processed_customers),
          ?_, ?_, ?_, ?_, ?_, ?_⟩
  · unfold processedAfter
    rw [fetchAndSaveFailAfter_of_found src ps storeName j.id newJobId startedAt errMsg now
        cur k st j hfind]
    rw [pagerRunFailAfter_jobs src ps hps storeName j.id errMsg now k cur
        j.processed_customers _ _ hkle hinner]
    by_cases hk0 : k = 0
    · rw [if_pos hk0, if_pos hk0]
      rfl
    · rw [if_neg hk0, if_neg hk0]
      rfl
  · unfold processedAfter
    rw [fetchAndSaveFailAfter_of_found src ps storeName j.id newJobId startedAt errMsg now
        cur k' st j hfind]
    rw [pagerRunFailAfter_jobs src ps hps storeName j.id errMsg now k' cur
        j.processed_customers _ _ hk' hinner]
    by_cases hk0 : k' = 0
    · rw [if_pos hk0, if_pos hk0]
      rfl
    · rw [if_neg hk0, if_neg hk0]
      rfl
  · unfold processedAfter
    rw [fetchAndSaveCustomers_of_found src ps storeName j.id newJobId startedAt now cur st
        j hfind]
    rw [pagerRun_jobs src ps hps storeName j.id now (src.length + 1) cur
        j.processed_customers _ _ hfuel hcurle hinner]
    unfold pagerFinalJob
    by_cases hcur : cur < src.length
    · rw [if_pos hcur, if_pos hcur]
      rfl
    · rw [if_neg hcur, if_neg hcur]
      rfl
  · by_cases hk0 : k = 0
    · rw [if_pos hk0]
    · rw [if_neg hk0]
      exact Nat.le_add_right _ _
  · by_cases hk0 : k = 0
    · rw [if_pos hk0]
      by_cases hk0' : k' = 0
      · rw [if_pos hk0']
      · rw [if_neg hk0']
        exact Nat.le_add_right _ _
    · have hk0' : ¬ k' = 0 := by omega
      rw [if_neg hk0, if_neg hk0']
      exact Nat.add_le_add_left hmle _
  · by_cases hcur : cur < src.length
    · rw [if_pos hcur]
      exact Nat.le_add_right _ _
    · rw [if_neg hcur]

theorem c3_processed_monotone_witness :
    ∃ p p' q,
      processedAfter
        (fetchAndSaveFailAfter c2Src 2 "evisu-us" (some "jobC") (some 0) "nj" "t0"
          "boom" "t1" 0 ⟨[], [c6CompletedJob]⟩) "jobC" = some p ∧
      processedAfter
        (fetchAndSaveFailAfter c2Src 2 "evisu-us" (some "jobC") (some 0) "nj" "t0"
          "boom" "t1" 1 ⟨[], [c6CompletedJob]⟩) "jobC" = some p' ∧
      processedAfter
        (fetchAndSaveCustomers c2Src 2 "evisu-us" (some "jobC") (some 0) "nj" "t0"
          "t1" ⟨[], [c6CompletedJob]⟩) "jobC" = some q ∧
      c6CompletedJob.processed_customers ≤ p ∧ p ≤ p' ∧
      c6CompletedJob.processed_customers ≤ q :=
  c3_processed_monotone c2Src 2 (by decide) "evisu-us" "jobC" "nj" "t0" "boom" "t1"
    ⟨[], [c6CompletedJob]⟩ c6CompletedJob 0 0 1 (by decide) (by decide) (by decide)

/-! ## C1 — resume correctness -/

/-- A fresh export of `src` that commits `k` pages and fails, starting from
an empty database: the start route's background task hitting a transient
error after page `k`. -/
def firstRunFailed (src : List CustomerData) (ps k : Nat)
    (storeName jobId errMsg now startedAt : String) : DbState :=
  fetchAndSaveFailAfter src ps storeName none none jobId startedAt errMsg now k ⟨[], []⟩

/-- The state after `POST /api/export/:storeName/resume` (explicit job id)
on the failed run's state, with the background task run to completion. -/
def resumedRun (src : List CustomerData) (ps k : Nat)
    (storeName jobId errMsg now1 now2 startedAt : String) : DbState :=
  resumeRequestRun src ps "unused" "unused" now2
    (firstRunFailed src ps k storeName jobId errMsg now1 startedAt) [] storeName
    (some jobId)

/-- C1: resume correctness. After a job fails with `k ≥ 1` committed pages
(stored cursor = position after page `k`, stored count = `k·ps`), the
resume route accepts with exactly the checkpointed cursor and the stored
count as the running total; the resumed run completes with
`processedCount` equal to the number of records in the upstream stream
(all of whose ids are distinct), and the collection's cache rows carry
exactly those ids — zero duplicate `externalId`s. -/
theorem c1_resume_correctness (src : List CustomerData) (ps k : Nat)
    (storeName jobId errMsg now1 now2 startedAt : String)
    (hps : 0 < ps) (hstore : storeName ∈ storeNames)
    (hnd : (src.map CustomerData.id).Nodup)
    (hk : 1 ≤ k) (hmid : k * ps < src.length) :
    resolveResume (firstRunFailed src ps k storeName jobId errMsg now1 startedAt) []
        storeName (some jobId)
      = ResumeDecision.accepted jobId (k * ps) (k * ps) ∧
    processedAfter (resumedRun src ps k storeName jobId errMsg now1 now2 startedAt) jobId
      = some src.length ∧
    (getExportJob (resumedRun src ps k storeName jobId errMsg now1 now2 startedAt).jobs
        jobId).map JobRow.status = some JobStatus.completed ∧
    ((resumedRun src ps k storeName jobId errMsg now1 now2 startedAt).customers.filter
        (fun r => r.store_name == storeName)).map CustomerRow.id
      = src.map CustomerData.id ∧
    (((resumedRun src ps k storeName jobId errMsg now1 now2 startedAt).customers.filter
        (fun r => r.store_name == storeName)).map CustomerRow.id).Nodup := by
  have hkle : k * ps ≤ src.length := le_of_lt hmid
  have hnd0 : ((src.drop 0).map CustomerData.id).Nodup := by
    rw [List.drop_zero]
    exact hnd
  -- the freshly created job, marked in_progress
  have hj0 : getExportJob
      (updateExportJobIn ([] ++ [newExportJob jobId storeName startedAt]) jobId
        inProgressUpdates) jobId
      = some (updateExportJob inProgressUpdates (newExportJob jobId storeName startedAt)) := by
    rw [getExportJob_updateExportJobIn]
    rw [show getExportJob ([] ++ [newExportJob jobId storeName startedAt]) jobId
        = some (newExportJob jobId storeName startedAt) from by
      simp [getExportJob, newExportJob, List.find?]]
    rfl
  -- the job row after the failed first run
  have hjobs1 : getExportJob (firstRunFailed src ps k storeName jobId errMsg now1
        startedAt).jobs jobId
      = some (updateExportJob (failureUpdates errMsg now1)
          (updateExportJob (batchUpdates (0 + k * ps) (0 + k * ps))
            (updateExportJob inProgressUpdates (newExportJob jobId storeName startedAt)))) := by
    unfold firstRunFailed
    rw [fetchAndSaveFailAfter_new]
    rw [pagerRunFailAfter_jobs src ps hps storeName jobId errMsg now1 k 0 0 _ _
        (by omega) hj0]
    rw [if_neg (by omega : ¬ k = 0)]
  -- the customers table after the failed first run
  have hcust1 : (firstRunFailed src ps k storeName jobId errMsg now1 startedAt).customers
      = ((src.drop 0).take (k * ps)).map (customerRowOf now1 storeName) := by
    unfold firstRunFailed
    rw [fetchAndSaveFailAfter_new]
    rw [pagerRunFailAfter_customers src ps hps storeName jobId errMsg now1 k 0 0 _
        (by omega) (fun c _ r hr => absurd hr (List.not_mem_nil r)) hnd0]
    rfl
  -- resume is accepted from the checkpoint
  have hfindJob1 : findJobToResume (firstRunFailed src ps k storeName jobId errMsg now1
        startedAt).jobs storeName (some jobId)
      = some (updateExportJob (failureUpdates errMsg now1)
          (updateExportJob (batchUpdates (0 + k * ps) (0 + k * ps))
            (updateExportJob inProgressUpdates (newExportJob jobId storeName startedAt)))) := by
    unfold findJobToResume
    rw [show (some jobId).bind (getExportJob (firstRunFailed src ps k storeName jobId
          errMsg now1 startedAt).jobs)
        = getExportJob (firstRunFailed src ps k storeName jobId errMsg now1
            startedAt).jobs jobId from rfl,
       hjobs1]
  have hresolve : resolveResume (firstRunFailed src ps k storeName jobId errMsg now1
        startedAt) [] storeName (some jobId)
      = ResumeDecision.accepted jobId (k * ps) (k * ps) := by
    unfold resolveResume
    rw [if_neg (fun hno => hno hstore),
        if_neg (by simp : ¬ storeName ∈ ([] : List String)), hfindJob1]
    show ResumeDecision.accepted jobId (0 + k * ps) (0 + k * ps)
      = ResumeDecision.accepted jobId (k * ps) (k * ps)
    rw [Nat.zero_add]
  have hcustFinal : ((pagerRun src ps storeName jobId now2 (src.length + 1) (k * ps)
        (0 + k * ps)
        ⟨(firstRunFailed src ps k storeName jobId errMsg now1 startedAt).customers,
         updateExportJobIn (firstRunFailed src ps k storeName jobId errMsg now1
           startedAt).jobs jobId inProgressUpdates⟩).customers.filter
          (fun r => r.store_name == storeName)).map CustomerRow.id
      = src.map CustomerData.id := by
    obtain ⟨hstep_fresh, hstep_nd, _, _⟩ :=
      fresh_nodup_step src (k * ps) 0 now1 storeName []
        (fun c _ r hr => absurd hr (List.not_mem_nil r)) hnd0
    rw [show (pagerRun src ps storeName jobId now2 (src.length + 1) (k * ps) (0 + k * ps)
          ⟨(firstRunFailed src ps k storeName jobId errMsg now1 startedAt).customers,
           updateExportJobIn (firstRunFailed src ps k storeName jobId errMsg now1
             startedAt).jobs jobId inProgressUpdates⟩).customers
        = (firstRunFailed src ps k storeName jobId errMsg now1 startedAt).customers
            ++ (src.drop (k * ps)).map (customerRowOf now2 storeName) from by
      rw [pagerRun_customers src ps hps storeName jobId now2 (src.length + 1) (k * ps)
          (0 + k * ps) _ (by omega) hkle
          (by
            show ∀ c ∈ src.drop (k * ps),
              ∀ r ∈ (firstRunFailed src ps k storeName jobId errMsg now1
                startedAt).customers, r.id ≠ c.id
            rw [hcust1]
            intro c hc r hr
            exact hstep_fresh c (by simpa using hc) r (by simpa using hr))
          (by
            have h := hstep_nd
            rw [Nat.zero_add] at h
            exact h)]]
    rw [hcust1, List.drop_zero]
    rw [show ((src.take (k * ps)).map (customerRowOf now1 storeName)
          ++ (src.drop (k * ps)).map (customerRowOf now2 storeName)).filter
            (fun r => r.store_name == storeName)
        = (src.take (k * ps)).map (customerRowOf now1 storeName)
          ++ (src.drop (k * ps)).map (customerRowOf now2 storeName) from by
      apply List.filter_eq_self.mpr
      intro r hr
      rcases List.mem_append.mp hr with h | h <;>
        (rcases List.mem_map.mp h with ⟨c, _, hrc⟩
         rw [← hrc]
         show ((customerRowOf _ storeName c).store_name == storeName) = true
         exact beq_self_eq_true storeName)]
    rw [List.map_append, List.map_map, List.map_map]
    rw [show CustomerRow.id ∘ customerRowOf now1 storeName = CustomerData.id from rfl]
    rw [show CustomerRow.id ∘ customerRowOf now2 storeName = CustomerData.id from rfl]
    rw [← List.map_append, List.take_append_drop]
  refine ⟨hresolve, ?_, ?_, ?_, ?_⟩ <;>
    rw [show resumedRun src ps k storeName jobId errMsg now1 now2 startedAt
        = pagerRun src ps storeName jobId now2 (src.length + 1) (k * ps) (0 + k * ps)
            ⟨(firstRunFailed src ps k storeName jobId errMsg now1 startedAt).customers,
             updateExportJobIn (firstRunFailed src ps k storeName jobId errMsg now1
               startedAt).jobs jobId inProgressUpdates⟩ from by
      unfold resumedRun
      unfold resumeRequestRun
      rw [hresolve]
      show fetchAndSaveCustomers src ps storeName (some jobId) (some (k * ps)) "unused"
          "unused" now2 (firstRunFailed src ps k storeName jobId errMsg now1 startedAt) = _
      rw [fetchAndSaveCustomers_of_found src ps storeName jobId "unused" "unused" now2
          (k * ps) _ _ hjobs1]
      rfl]
  -- job side
  case _ =>
    unfold processedAfter
    rw [pagerRun_jobs src ps hps storeName jobId now2 (src.length + 1) (k * ps)
        (0 + k * ps) _ _ (by omega) hkle
        (by
          rw [getExportJob_updateExportJobIn, hjobs1]
          rfl)]
    unfold pagerFinalJob
    rw [if_pos hmid]
    show some (0 + k * ps + (src.length - k * ps)) = some src.length
    congr 1
    omega
  case _ =>
    rw [pagerRun_jobs src ps hps storeName jobId now2 (src.length + 1) (k * ps)
        (0 + k * ps) _ _ (by omega) hkle
        (by
          rw [getExportJob_updateExportJobIn, hjobs1]
          rfl)]
    unfold pagerFinalJob
    rw [if_pos hmid]
    rfl
  case _ =>
    exact hcustFinal
  case _ =>
    rw [hcustFinal]
    exact hnd

def c1Src : List CustomerData :=
  [mkCustomer "a1", mkCustomer "a2", mkCustomer "a3", mkCustomer "a4", mkCustomer "a5"]

theorem c1_resume_correctness_witness :
    resolveResume (firstRunFailed c1Src 2 1 "evisu-us" "jobA" "boom" "t1" "t0") []
        "evisu-us" (some "jobA")
      = ResumeDecision.accepted "jobA" (1 * 2) (1 * 2) ∧
    processedAfter (resumedRun c1Src 2 1 "evisu-us" "jobA" "boom" "t1" "t2" "t0") "jobA"
      = some c1Src.length ∧
    (getExportJob (resumedRun c1Src 2 1 "evisu-us" "jobA" "boom" "t1" "t2" "t0").jobs
        "jobA").map JobRow.status = some JobStatus.completed ∧
    ((resumedRun c1Src 2 1 "evisu-us" "jobA" "boom" "t1" "t2" "t0").customers.filter
        (fun r => r.store_name == "evisu-us")).map CustomerRow.id
      = c1Src.map CustomerData.id ∧
    (((resumedRun c1Src 2 1 "evisu-us" "jobA" "boom" "t1" "t2" "t0").customers.filter
        (fun r => r.store_name == "evisu-us")).map CustomerRow.id).Nodup :=
  c1_resume_correctness c1Src 2 1 "evisu-us" "jobA" "boom" "t1" "t2" "t0" (by decide)
    (by decide) (by decide) (by decide) (by decide)

end ShopifyInteractive
